import Mathlib

/-!
# Verification of the stained-glass vectorizer core

A shallow embedding, in Lean 4, of the image-to-artwork pipeline of the
`stained-glass` repository, together with theorems settling the frozen
claims about it.

Conventions used throughout:

* JavaScript numbers are modelled exactly: by `ℚ` where the code only uses
  field operations and rounding, and by `ℝ` where the code calls
  `Math.sqrt` / `Math.cos` / `Math.sin` / `Math.atan2` / `Math.PI`
  (those are modelled by the exact real functions).
* `Math.floor` is `Int.floor`, `Math.ceil` is `Int.ceil`, and
  `Math.round x` is `⌊x + 1/2⌋` (JavaScript rounds half-way cases up).
* `Math.random()` is modelled by an explicit stream `s : ℕ → ℚ` (or
  `ℕ → ℝ`) of draws together with a counter that advances by one per call,
  mirroring the global, stateful JS RNG.
* Arrays are Lean lists; out-of-range reads use `getD` with the default 0
  (the code never reads out of range on the paths covered by the claims).
-/

namespace StainedGlass

/-- JavaScript `Math.round` on rationals: round half up. -/
def jround (q : ℚ) : ℤ := ⌊q + 1/2⌋

/-- JavaScript `Math.round` on reals: round half up. -/
noncomputable def jroundR (x : ℝ) : ℤ := ⌊x + 1/2⌋

/-- Clamp `Math.min (Math.max v lo) hi` as it appears in the code. -/
def clampQ (v lo hi : ℚ) : ℚ := min (max v lo) hi

@[simp] theorem jround_intCast (n : ℤ) : jround (n : ℚ) = n := by
  unfold jround
  rw [Int.floor_eq_iff]
  constructor
  · linarith
  · linarith

/-- A 2-D point with rational coordinates (`Point` in `src/types`). -/
structure PointQ where
  x : ℚ
  y : ℚ
deriving DecidableEq, Repr

/-- An RGB color; the code only ever stores integers in the channels
(`Math.round` results and image bytes). -/
structure RGB where
  r : ℤ
  g : ℤ
  b : ℤ
deriving DecidableEq, Repr

/-! ## Component D: Voronoi tessellation (`src/lib/voronoi/generator.ts`)

`generateVoronoi` delegates the geometric work to the external
`d3-delaunay` library (`voronoi.cellPolygon i`), which is not part of the
repository.  The library is therefore a parameter `cellPolygonOf`:
`cellPolygonOf i` is the (closed) cell polygon of seed `i`, or `none` when
the library returns `null` (as it does e.g. for coincident duplicate
seeds). -/

/-- `calculateCentroid` from `src/lib/voronoi/generator.ts`: vertex mean. -/
def calculateCentroid (polygon : List PointQ) : PointQ :=
  { x := (polygon.map PointQ.x).sum / polygon.length,
    y := (polygon.map PointQ.y).sum / polygon.length }

/-- `VoronoiCell` from `src/types/index.ts`. -/
structure VoronoiCell where
  index : ℕ
  polygon : List PointQ
  centroid : PointQ
deriving DecidableEq, Repr

/-- The body of the cell-extraction loop of `generateVoronoi`
(`src/lib/voronoi/generator.ts`): for seed `i`, ask the library for the
cell polygon, skip `null` and short polygons (`cellPolygon.length > 2`
guard), drop the closing vertex, re-check `polygon.length < 3`, and build
the cell with `index := i`. -/
def voronoiCellAt (cellPolygonOf : ℕ → Option (List PointQ)) (i : ℕ) :
    Option VoronoiCell :=
  match cellPolygonOf i with
  | none => none
  | some cellPolygon =>
    if 2 < cellPolygon.length then
      if (cellPolygon.take (cellPolygon.length - 1)).length < 3 then none
      else some { index := i,
                  polygon := cellPolygon.take (cellPolygon.length - 1),
                  centroid :=
                    calculateCentroid (cellPolygon.take (cellPolygon.length - 1)) }
    else none

/-- `generateVoronoi` from `src/lib/voronoi/generator.ts`: the loop over
all seed indices, collecting surviving cells in seed order.  The source
also returns `width`/`height` untouched in a wrapper record; only the
cell array is modelled. -/
def generateVoronoi (cellPolygonOf : ℕ → Option (List PointQ))
    (points : List PointQ) : List VoronoiCell :=
  (List.range points.length).filterMap (voronoiCellAt cellPolygonOf)

theorem voronoiCellAt_index (cellPolygonOf : ℕ → Option (List PointQ))
    (i : ℕ) (c : VoronoiCell) (h : voronoiCellAt cellPolygonOf i = some c) :
    c.index = i := by
  unfold voronoiCellAt at h
  split at h
  · exact absurd h (by simp)
  · split at h
    · split at h
      · exact absurd h (by simp)
      · cases h
        rfl
    · exact absurd h (by simp)

theorem filterMap_map_index_sublist (cellPolygonOf : ℕ → Option (List PointQ))
    (l : List ℕ) :
    ((l.filterMap (voronoiCellAt cellPolygonOf)).map VoronoiCell.index).Sublist l := by
  induction l with
  | nil => simp
  | cons i l ih =>
    rw [List.filterMap_cons]
    cases h : voronoiCellAt cellPolygonOf i with
    | none => exact ih.cons i
    | some c =>
      rw [List.map_cons, voronoiCellAt_index cellPolygonOf i c h]
      exact ih.cons₂ i

theorem generateVoronoi_map_index_sublist (cellPolygonOf : ℕ → Option (List PointQ))
    (points : List PointQ) :
    ((generateVoronoi cellPolygonOf points).map VoronoiCell.index).Sublist
      (List.range points.length) :=
  filterMap_map_index_sublist cellPolygonOf (List.range points.length)

instance : Inhabited VoronoiCell := ⟨⟨0, [], ⟨0, 0⟩⟩⟩

theorem getD_map_index (l : List VoronoiCell) (i : ℕ) (hi : i < l.length) :
    (l.map VoronoiCell.index).getD i 0 = (l.getD i default).index := by
  rw [List.getD_eq_getElem _ _ (by simpa using hi), List.getD_eq_getElem _ _ hi]
  simp

theorem voronoiCellAt_polygon_len (cellPolygonOf : ℕ → Option (List PointQ))
    (i : ℕ) (c : VoronoiCell) (h : voronoiCellAt cellPolygonOf i = some c) :
    3 ≤ c.polygon.length := by
  unfold voronoiCellAt at h
  split at h
  · exact absurd h (by simp)
  · split at h
    · split at h
      · exact absurd h (by simp)
      · cases h
        dsimp only
        omega
    · exact absurd h (by simp)

/-- C4 (amended): for every library behaviour and every seed set, each
cell returned by `generateVoronoi` has a polygon with at least 3
vertices, carries as `index` the index of its generating seed (so indices
are strictly increasing: surviving cells appear in seed order, degenerate
cells having been dropped silently), and when no cell was dropped the
index coincides with the cell's position in the returned array. -/
theorem generateVoronoi_cells_spec (cellPolygonOf : ℕ → Option (List PointQ))
    (points : List PointQ) :
    (∀ c ∈ generateVoronoi cellPolygonOf points, 3 ≤ c.polygon.length) ∧
    (∀ c ∈ generateVoronoi cellPolygonOf points,
      voronoiCellAt cellPolygonOf c.index = some c) ∧
    ((generateVoronoi cellPolygonOf points).map VoronoiCell.index).Pairwise (· < ·) ∧
    ((generateVoronoi cellPolygonOf points).length = points.length →
      ∀ i < (generateVoronoi cellPolygonOf points).length,
        ((generateVoronoi cellPolygonOf points).getD i default).index = i) := by
  refine ⟨?_, ?_, ?_, ?_⟩
  · intro c hc
    obtain ⟨i, _, hi⟩ := List.mem_filterMap.mp hc
    exact voronoiCellAt_polygon_len cellPolygonOf i c hi
  · intro c hc
    obtain ⟨i, _, hi⟩ := List.mem_filterMap.mp hc
    rw [voronoiCellAt_index cellPolygonOf i c hi]
    exact hi
  · exact List.Pairwise.sublist (generateVoronoi_map_index_sublist cellPolygonOf points)
      (List.pairwise_lt_range points.length)
  · intro hlen i hi
    have hsub := generateVoronoi_map_index_sublist cellPolygonOf points
    have heq : (generateVoronoi cellPolygonOf points).map VoronoiCell.index =
        List.range points.length := by
      apply hsub.eq_of_length
      simp [hlen]
    have hgi : ((generateVoronoi cellPolygonOf points).map VoronoiCell.index).getD i 0 = i := by
      rw [heq, List.getD_eq_getElem _ _ (by simpa [hlen] using hi)]
      simp
    rw [getD_map_index _ i hi] at hgi
    exact hgi

/-- A concrete library behaviour: seed 0 gets a `null` cell polygon (as
`d3-delaunay` produces for coincident duplicate seeds), seed 1 a
triangle. -/
def voronoiCexLib : ℕ → Option (List PointQ) := fun i =>
  if i = 0 then none else some [⟨0, 0⟩, ⟨1, 0⟩, ⟨0, 1⟩, ⟨0, 0⟩]

def voronoiCexPoints : List PointQ := [⟨0, 0⟩, ⟨0, 0⟩]

/-- C4, counterexample: when the cell of seed 0 is degenerate and dropped,
the surviving cell sits at position 0 of the returned array but carries
`index = 1`, so "index equals its position in the returned array" fails. -/
theorem generateVoronoi_index_counterexample :
    ¬ (∀ i < (generateVoronoi voronoiCexLib voronoiCexPoints).length,
        ((generateVoronoi voronoiCexLib voronoiCexPoints).getD i default).index = i) := by
  decide

def voronoiWitnessLib : ℕ → Option (List PointQ) := fun _ =>
  some [⟨0, 0⟩, ⟨1, 0⟩, ⟨0, 1⟩, ⟨0, 0⟩]

theorem generateVoronoi_cells_spec_witness :
    (∀ c ∈ generateVoronoi voronoiWitnessLib voronoiCexPoints, 3 ≤ c.polygon.length) ∧
    ((generateVoronoi voronoiWitnessLib voronoiCexPoints).length =
      voronoiCexPoints.length ∧
      ∀ i < (generateVoronoi voronoiWitnessLib voronoiCexPoints).length,
        ((generateVoronoi voronoiWitnessLib voronoiCexPoints).getD i default).index = i) :=
  ⟨(generateVoronoi_cells_spec voronoiWitnessLib voronoiCexPoints).1,
    by decide,
    (generateVoronoi_cells_spec voronoiWitnessLib voronoiCexPoints).2.2.2 (by decide)⟩

/-! ## Component A: pixel buffer (`src/lib/image/loader.ts`) -/

/-- A decoded RGBA surface: row-major, four bytes per pixel. -/
structure ImageDataQ where
  width : ℕ
  height : ℕ
  data : List ℕ
deriving DecidableEq, Repr

/-- `getPixel` from `src/lib/image/loader.ts`:
`idx = (Math.floor(y) * width + Math.floor(x)) * 4`, then the four bytes
at `idx`.  Only the RGB part is consumed by the sampling code.  Reads are
modelled with `getD _ 0`; the paths covered by the claims stay in range
(negative `idx`, where JS would yield `undefined`, maps to `.toNat = 0`
here and is likewise never reached on those paths). -/
def getPixel (imageData : ImageDataQ) (x y : ℚ) : RGB :=
  { r := imageData.data.getD ((⌊y⌋ * imageData.width + ⌊x⌋) * 4).toNat 0,
    g := imageData.data.getD (((⌊y⌋ * imageData.width + ⌊x⌋) * 4).toNat + 1) 0,
    b := imageData.data.getD (((⌊y⌋ * imageData.width + ⌊x⌋) * 4).toNat + 2) 0 }

/-! ## Component E: color sampling (`src/lib/image/sampler.ts`)

The HSL conversions are inlined in several source functions
(`adjustColor` in `sampler.ts`, `adjustBrightness` in
`lighting/transmission.ts`, `boostSaturation` in `lighting/glow.ts`); all
of them compute `max`, `min`, `l`, `s`, `h` by the same inlined formulas
and convert back through the same local `hue2rgb`, so those formulas are
factored into shared helpers here and each source function is assembled
from them. -/

/-- The maximum channel, `Math.max(r, g, b)`. -/
def rgbMax (r g b : ℚ) : ℚ := max r (max g b)

/-- The minimum channel, `Math.min(r, g, b)`. -/
def rgbMin (r g b : ℚ) : ℚ := min r (min g b)

/-- HSL lightness `l = (max + min) / 2`. -/
def hslL (r g b : ℚ) : ℚ := (rgbMax r g b + rgbMin r g b) / 2

/-- HSL saturation as inlined in the source: `0` when `max = min`, else
`d / (2 - max - min)` when `l > 0.5` and `d / (max + min)` otherwise. -/
def hslS (r g b : ℚ) : ℚ :=
  if rgbMax r g b = rgbMin r g b then 0
  else if 1/2 < hslL r g b then
    (rgbMax r g b - rgbMin r g b) / (2 - rgbMax r g b - rgbMin r g b)
  else
    (rgbMax r g b - rgbMin r g b) / (rgbMax r g b + rgbMin r g b)

/-- HSL hue as inlined in the source (`switch (max)` matches the `r` case
first, then `g`, then `b`). -/
def hslH (r g b : ℚ) : ℚ :=
  if rgbMax r g b = rgbMin r g b then 0
  else if rgbMax r g b = r then
    ((g - b) / (rgbMax r g b - rgbMin r g b) + if g < b then 6 else 0) / 6
  else if rgbMax r g b = g then
    ((b - r) / (rgbMax r g b - rgbMin r g b) + 2) / 6
  else
    ((r - g) / (rgbMax r g b - rgbMin r g b) + 4) / 6

/-- First in-place adjustment of `t` in `hue2rgb`: `if (t < 0) t += 1`. -/
def hueShiftUp (t : ℚ) : ℚ := if t < 0 then t + 1 else t

/-- Second in-place adjustment: `if (t > 1) t -= 1`. -/
def hueShiftDown (t : ℚ) : ℚ := if 1 < t then t - 1 else t

/-- The branch body of the local `hue2rgb` helper. -/
def hue2rgbBody (p q t : ℚ) : ℚ :=
  if t < 1/6 then p + (q - p) * 6 * t
  else if t < 1/2 then q
  else if t < 2/3 then p + (q - p) * (2/3 - t) * 6
  else p

/-- The local `hue2rgb` helper, identical in all three source files. -/
def hue2rgb (p q t : ℚ) : ℚ := hue2rgbBody p q (hueShiftDown (hueShiftUp t))

/-- `q` of the HSL→RGB conversion:
`l < 0.5 ? l * (1 + s) : l + s - l * s`. -/
def hslQv (s l : ℚ) : ℚ := if l < 1/2 then l * (1 + s) else l + s - l * s

/-- The HSL→RGB back-conversion shared by the source functions: the
grayscale short-circuit for `s = 0`, otherwise `hue2rgb` per channel with
`q`/`p` and `Math.round(· * 255)`. -/
def hslToRgb (h s l : ℚ) : RGB :=
  if s = 0 then
    { r := jround (l * 255), g := jround (l * 255), b := jround (l * 255) }
  else
    { r := jround (hue2rgb (2 * l - hslQv s l) (hslQv s l) (h + 1/3) * 255),
      g := jround (hue2rgb (2 * l - hslQv s l) (hslQv s l) h * 255),
      b := jround (hue2rgb (2 * l - hslQv s l) (hslQv s l) (h - 1/3) * 255) }

theorem hue2rgb_seg1 (p q t : ℚ) (h0 : 0 ≤ t) (h1 : t < 1/6) :
    hue2rgb p q t = p + (q - p) * 6 * t := by
  unfold hue2rgb hueShiftUp hueShiftDown hue2rgbBody
  rw [if_neg (show ¬ t < 0 by linarith), if_neg (show ¬ (1:ℚ) < t by linarith),
    if_pos h1]

theorem hue2rgb_seg2 (p q t : ℚ) (h0 : 1/6 ≤ t) (h1 : t < 1/2) :
    hue2rgb p q t = q := by
  unfold hue2rgb hueShiftUp hueShiftDown hue2rgbBody
  rw [if_neg (show ¬ t < 0 by linarith), if_neg (show ¬ (1:ℚ) < t by linarith),
    if_neg (show ¬ t < 1/6 by linarith), if_pos h1]

theorem hue2rgb_seg3 (p q t : ℚ) (h0 : 1/2 ≤ t) (h1 : t < 2/3) :
    hue2rgb p q t = p + (q - p) * (2/3 - t) * 6 := by
  unfold hue2rgb hueShiftUp hueShiftDown hue2rgbBody
  rw [if_neg (show ¬ t < 0 by linarith), if_neg (show ¬ (1:ℚ) < t by linarith),
    if_neg (show ¬ t < 1/6 by linarith), if_neg (show ¬ t < 1/2 by linarith),
    if_pos h1]

theorem hue2rgb_seg4 (p q t : ℚ) (h0 : 2/3 ≤ t) (h1 : t ≤ 1) :
    hue2rgb p q t = p := by
  unfold hue2rgb hueShiftUp hueShiftDown hue2rgbBody
  rw [if_neg (show ¬ t < 0 by linarith), if_neg (show ¬ (1:ℚ) < t by linarith),
    if_neg (show ¬ t < 1/6 by linarith), if_neg (show ¬ t < 1/2 by linarith),
    if_neg (show ¬ t < 2/3 by linarith)]

theorem hue2rgb_seg5 (p q t : ℚ) (h0 : 1 < t) (h1 : t - 1 < 1/6) :
    hue2rgb p q t = p + (q - p) * 6 * (t - 1) := by
  unfold hue2rgb hueShiftUp hueShiftDown hue2rgbBody
  rw [if_neg (show ¬ t < 0 by linarith), if_pos (show (1:ℚ) < t from h0),
    if_pos (show t - 1 < 1/6 from h1)]

theorem hue2rgb_seg6 (p q t : ℚ) (h0 : 1 + 1/6 ≤ t) (h1 : t - 1 < 1/2) :
    hue2rgb p q t = q := by
  unfold hue2rgb hueShiftUp hueShiftDown hue2rgbBody
  rw [if_neg (show ¬ t < 0 by linarith), if_pos (show (1:ℚ) < t by linarith),
    if_neg (show ¬ t - 1 < 1/6 by linarith), if_pos h1]

theorem hue2rgb_seg7 (p q t : ℚ) (h0 : t < 0) (h1 : 2/3 ≤ t + 1) :
    hue2rgb p q t = p := by
  unfold hue2rgb hueShiftUp hueShiftDown hue2rgbBody
  rw [if_pos h0, if_neg (show ¬ (1:ℚ) < t + 1 by linarith),
    if_neg (show ¬ t + 1 < 1/6 by linarith),
    if_neg (show ¬ t + 1 < 1/2 by linarith),
    if_neg (show ¬ t + 1 < 2/3 by linarith)]

theorem r_le_rgbMax (r g b : ℚ) : r ≤ rgbMax r g b := le_max_left _ _

theorem g_le_rgbMax (r g b : ℚ) : g ≤ rgbMax r g b :=
  le_trans (le_max_left _ _) (le_max_right _ _)

theorem b_le_rgbMax (r g b : ℚ) : b ≤ rgbMax r g b :=
  le_trans (le_max_right _ _) (le_max_right _ _)

theorem rgbMin_le_r (r g b : ℚ) : rgbMin r g b ≤ r := min_le_left _ _

theorem rgbMin_le_g (r g b : ℚ) : rgbMin r g b ≤ g :=
  le_trans (min_le_right _ _) (min_le_left _ _)

theorem rgbMin_le_b (r g b : ℚ) : rgbMin r g b ≤ b :=
  le_trans (min_le_right _ _) (min_le_right _ _)

/-- Exact inversion of the inlined RGB→HSL conversion by the local
`hue2rgb` with `q = max` and `p = min`, in the non-grayscale case: each
channel is recovered exactly. -/
theorem hue2rgb_channels (r g b : ℚ) (hne : rgbMax r g b ≠ rgbMin r g b) :
    hue2rgb (rgbMin r g b) (rgbMax r g b) (hslH r g b + 1/3) = r ∧
    hue2rgb (rgbMin r g b) (rgbMax r g b) (hslH r g b) = g ∧
    hue2rgb (rgbMin r g b) (rgbMax r g b) (hslH r g b - 1/3) = b := by
  have hMr := r_le_rgbMax r g b
  have hMg := g_le_rgbMax r g b
  have hMb := b_le_rgbMax r g b
  have hmr := rgbMin_le_r r g b
  have hmg := rgbMin_le_g r g b
  have hmb := rgbMin_le_b r g b
  have hlt : rgbMin r g b < rgbMax r g b :=
    lt_of_le_of_ne (le_trans hmr hMr) (Ne.symm hne)
  unfold hslH
  rw [if_neg hne]
  by_cases hMr' : rgbMax r g b = r
  · -- switch matches the `r` case
    have hmin : rgbMin r g b = min g b := by
      unfold rgbMin
      exact min_eq_right (le_trans (min_le_left g b) (hMr' ▸ hMg))
    rw [if_pos hMr']
    by_cases hgb : g < b
    · -- `g < b`: hue in [5/6, 1)
      have hm' : rgbMin r g b = g := by
        rw [hmin]; exact min_eq_left (le_of_lt hgb)
      rw [if_pos hgb, hMr', hm']
      have hd0 : (0:ℚ) < r - g := by rw [hMr', hm'] at hlt; linarith
      set f := (g - b) / (r - g) with hf
      have hfd : f * (r - g) = g - b := div_mul_cancel₀ _ (ne_of_gt hd0)
      have hf0 : f < 0 := div_neg_of_neg_of_pos (by linarith) hd0
      have hf1 : -1 ≤ f := by
        rw [hf, le_div_iff₀ hd0]
        have : b ≤ r := hMr' ▸ hMb
        linarith
      refine ⟨?_, ?_, ?_⟩
      · rw [hue2rgb_seg6 _ _ _ (by linarith) (by linarith)]
      · rw [hue2rgb_seg4 _ _ _ (by linarith) (by linarith)]
      · rw [hue2rgb_seg3 _ _ _ (by linarith) (by linarith)]
        linear_combination -hfd
    · -- `b ≤ g`: hue in [0, 1/6]
      have hm' : rgbMin r g b = b := by
        rw [hmin]; exact min_eq_right (by linarith)
      rw [if_neg hgb, hMr', hm']
      have hd0 : (0:ℚ) < r - b := by rw [hMr', hm'] at hlt; linarith
      set f := (g - b) / (r - b) with hf
      have hfd : f * (r - b) = g - b := div_mul_cancel₀ _ (ne_of_gt hd0)
      have hf0 : 0 ≤ f := div_nonneg (by linarith) (le_of_lt hd0)
      have hf1 : f ≤ 1 := by
        rw [hf, div_le_one hd0]
        have : g ≤ r := hMr' ▸ hMg
        linarith
      refine ⟨?_, ?_, ?_⟩
      · by_cases hftop : f < 1
        · rw [hue2rgb_seg2 _ _ _ (by linarith) (by linarith)]
        · have hfeq : f = 1 := le_antisymm hf1 (by linarith)
          rw [hue2rgb_seg3 _ _ _ (by linarith) (by linarith), hfeq]
          ring
      · by_cases hftop : f < 1
        · rw [hue2rgb_seg1 _ _ _ (by linarith) (by linarith)]
          linear_combination hfd
        · have hfeq : f = 1 := le_antisymm hf1 (by linarith)
          rw [hue2rgb_seg2 _ _ _ (by linarith) (by linarith)]
          have : g - b = r - b := by rw [← hfd, hfeq]; ring
          linarith
      · rw [hue2rgb_seg7 _ _ _ (by linarith) (by linarith)]
  · -- `max ≠ r`
    have hMgb : rgbMax r g b = max g b := by
      rcases max_choice r (max g b) with h | h
      · exact absurd h hMr'
      · exact h
    have hrM : r < rgbMax r g b := lt_of_le_of_ne hMr (fun h => hMr' h.symm)
    rw [if_neg hMr']
    by_cases hMg' : rgbMax r g b = g
    · -- switch matches the `g` case
      have hmin : rgbMin r g b = min r b := by
        unfold rgbMin
        have hbg : b ≤ g := hMg' ▸ hMb
        rw [min_eq_right hbg]
      rw [if_pos hMg']
      by_cases hbr : b < r
      · -- `b < r`: hue in (1/6, 1/3)
        have hm' : rgbMin r g b = b := by
          rw [hmin]; exact min_eq_right (le_of_lt hbr)
        rw [hMg', hm']
        have hd0 : (0:ℚ) < g - b := by rw [hMg', hm'] at hlt; linarith
        set f := (b - r) / (g - b) with hf
        have hfd : f * (g - b) = b - r := div_mul_cancel₀ _ (ne_of_gt hd0)
        have hf0 : f < 0 := div_neg_of_neg_of_pos (by linarith) hd0
        have hf1 : -1 < f := by
          rw [hf, lt_div_iff₀ hd0]
          have : r < g := hMg' ▸ hrM
          linarith
        refine ⟨?_, ?_, ?_⟩
        · rw [hue2rgb_seg3 _ _ _ (by linarith) (by linarith)]
          linear_combination -hfd
        · rw [hue2rgb_seg2 _ _ _ (by linarith) (by linarith)]
        · rw [hue2rgb_seg7 _ _ _ (by linarith) (by linarith)]
      · -- `r ≤ b`: hue in [1/3, 1/2]
        have hm' : rgbMin r g b = r := by
          rw [hmin]; exact min_eq_left (by linarith)
        rw [hMg', hm']
        have hd0 : (0:ℚ) < g - r := by rw [hMg', hm'] at hlt; linarith
        set f := (b - r) / (g - r) with hf
        have hfd : f * (g - r) = b - r := div_mul_cancel₀ _ (ne_of_gt hd0)
        have hf0 : 0 ≤ f := div_nonneg (by linarith) (le_of_lt hd0)
        have hf1 : f ≤ 1 := by
          rw [hf, div_le_one hd0]
          have : b ≤ g := hMg' ▸ hMb
          linarith
        refine ⟨?_, ?_, ?_⟩
        · rw [hue2rgb_seg4 _ _ _ (by linarith) (by linarith)]
        · by_cases hftop : f < 1
          · rw [hue2rgb_seg2 _ _ _ (by linarith) (by linarith)]
          · have hfeq : f = 1 := le_antisymm hf1 (by linarith)
            rw [hue2rgb_seg3 _ _ _ (by linarith) (by linarith), hfeq]
            ring
        · by_cases hftop : f < 1
          · rw [hue2rgb_seg1 _ _ _ (by linarith) (by linarith)]
            linear_combination hfd
          · have hfeq : f = 1 := le_antisymm hf1 (by linarith)
            rw [hue2rgb_seg2 _ _ _ (by linarith) (by linarith)]
            have : b - r = g - r := by rw [← hfd, hfeq]; ring
            linarith
    · -- switch falls through to the `b` case
      have hMb' : rgbMax r g b = b := by
        rcases max_choice g b with h | h
        · exact absurd (hMgb.trans h) hMg'
        · exact hMgb.trans h
      have hgM : g < rgbMax r g b := lt_of_le_of_ne hMg (fun h => hMg' h.symm)
      have hmin : rgbMin r g b = min r g := by
        unfold rgbMin
        have hgb : g ≤ b := hMb' ▸ hMg
        rw [min_comm g b, min_eq_right hgb]
      rw [if_neg hMg']
      by_cases hrg : r < g
      · -- `r < g`: hue in (1/2, 2/3)
        have hm' : rgbMin r g b = r := by
          rw [hmin]; exact min_eq_left (le_of_lt hrg)
        rw [hMb', hm']
        have hd0 : (0:ℚ) < b - r := by rw [hMb', hm'] at hlt; linarith
        set f := (r - g) / (b - r) with hf
        have hfd : f * (b - r) = r - g := div_mul_cancel₀ _ (ne_of_gt hd0)
        have hf0 : f < 0 := div_neg_of_neg_of_pos (by linarith) hd0
        have hf1 : -1 < f := by
          rw [hf, lt_div_iff₀ hd0]
          have : g < b := hMb' ▸ hgM
          linarith
        refine ⟨?_, ?_, ?_⟩
        · rw [hue2rgb_seg4 _ _ _ (by linarith) (by linarith)]
        · rw [hue2rgb_seg3 _ _ _ (by linarith) (by linarith)]
          linear_combination -hfd
        · rw [hue2rgb_seg2 _ _ _ (by linarith) (by linarith)]
      · -- `g ≤ r`: hue in [2/3, 5/6)
        have hm' : rgbMin r g b = g := by
          rw [hmin]; exact min_eq_right (by linarith)
        rw [hMb', hm']
        have hd0 : (0:ℚ) < b - g := by rw [hMb', hm'] at hlt; linarith
        set f := (r - g) / (b - g) with hf
        have hfd : f * (b - g) = r - g := div_mul_cancel₀ _ (ne_of_gt hd0)
        have hf0 : 0 ≤ f := div_nonneg (by linarith) (le_of_lt hd0)
        have hf1 : f < 1 := by
          rw [hf, div_lt_one hd0]
          have : r < b := hMb' ▸ hrM
          linarith
        refine ⟨?_, ?_, ?_⟩
        · by_cases hfbot : 0 < f
          · rw [hue2rgb_seg5 _ _ _ (by linarith) (by linarith)]
            linear_combination hfd
          · have hfeq : f = 0 := le_antisymm (by linarith) hf0
            rw [hue2rgb_seg4 _ _ _ (by linarith) (by linarith)]
            have : r - g = 0 := by rw [← hfd, hfeq]; ring
            linarith
        · rw [hue2rgb_seg4 _ _ _ (by linarith) (by linarith)]
        · rw [hue2rgb_seg2 _ _ _ (by linarith) (by linarith)]

theorem hslL_mem (r g b : ℚ) (h0r : 0 ≤ r) (h1r : r ≤ 1) (h0g : 0 ≤ g)
    (h1g : g ≤ 1) (h0b : 0 ≤ b) (h1b : b ≤ 1) :
    0 ≤ hslL r g b ∧ hslL r g b ≤ 1 := by
  have h1 : rgbMax r g b ≤ 1 := by
    unfold rgbMax
    exact max_le h1r (max_le h1g h1b)
  have h0 : 0 ≤ rgbMin r g b := by
    unfold rgbMin
    exact le_min h0r (le_min h0g h0b)
  have h2 : rgbMin r g b ≤ rgbMax r g b :=
    le_trans (rgbMin_le_r r g b) (r_le_rgbMax r g b)
  unfold hslL
  constructor <;> [linarith; linarith]

theorem hslS_mem (r g b : ℚ) (h0r : 0 ≤ r) (h1r : r ≤ 1) (h0g : 0 ≤ g)
    (h1g : g ≤ 1) (h0b : 0 ≤ b) (h1b : b ≤ 1) :
    0 ≤ hslS r g b ∧ hslS r g b ≤ 1 := by
  have h1M : rgbMax r g b ≤ 1 := max_le h1r (max_le h1g h1b)
  have h0m : 0 ≤ rgbMin r g b := le_min h0r (le_min h0g h0b)
  have h2 : rgbMin r g b ≤ rgbMax r g b :=
    le_trans (rgbMin_le_r r g b) (r_le_rgbMax r g b)
  have h1m : rgbMin r g b ≤ 1 := le_trans h2 h1M
  unfold hslS
  by_cases hne : rgbMax r g b = rgbMin r g b
  · rw [if_pos hne]
    exact ⟨le_refl 0, by norm_num⟩
  · rw [if_neg hne]
    have hlt : rgbMin r g b < rgbMax r g b := lt_of_le_of_ne h2 (Ne.symm hne)
    by_cases hl : 1/2 < hslL r g b
    · rw [if_pos hl]
      unfold hslL at hl
      have hden : (0:ℚ) < 2 - rgbMax r g b - rgbMin r g b := by
        by_cases h : rgbMax r g b = 1
        · have : rgbMin r g b < 1 := h ▸ hlt
          linarith
        · have : rgbMax r g b < 1 := lt_of_le_of_ne h1M h
          linarith
      constructor
      · exact div_nonneg (by linarith) (le_of_lt hden)
      · rw [div_le_one hden]
        linarith
    · rw [if_neg hl]
      unfold hslL at hl
      have hden : (0:ℚ) < rgbMax r g b + rgbMin r g b := by
        by_cases h : rgbMin r g b = 0
        · have : 0 < rgbMax r g b := h ▸ hlt
          linarith
        · have : 0 < rgbMin r g b := lt_of_le_of_ne h0m (Ne.symm h)
          linarith
      constructor
      · exact div_nonneg (by linarith) (le_of_lt hden)
      · rw [div_le_one hden]
        linarith

theorem hslS_pos (r g b : ℚ) (h0r : 0 ≤ r) (h1r : r ≤ 1) (h0g : 0 ≤ g)
    (h1g : g ≤ 1) (h0b : 0 ≤ b) (h1b : b ≤ 1)
    (hne : rgbMax r g b ≠ rgbMin r g b) : 0 < hslS r g b := by
  have h1M : rgbMax r g b ≤ 1 := max_le h1r (max_le h1g h1b)
  have h0m : 0 ≤ rgbMin r g b := le_min h0r (le_min h0g h0b)
  have h2 : rgbMin r g b ≤ rgbMax r g b :=
    le_trans (rgbMin_le_r r g b) (r_le_rgbMax r g b)
  have hlt : rgbMin r g b < rgbMax r g b := lt_of_le_of_ne h2 (Ne.symm hne)
  unfold hslS
  rw [if_neg hne]
  by_cases hl : 1/2 < hslL r g b
  · rw [if_pos hl]
    have hden : (0:ℚ) < 2 - rgbMax r g b - rgbMin r g b := by
      by_cases h : rgbMax r g b = 1
      · have : rgbMin r g b < 1 := h ▸ hlt
        linarith
      · have : rgbMax r g b < 1 := lt_of_le_of_ne h1M h
        linarith
    exact div_pos (by linarith) hden
  · rw [if_neg hl]
    have hden : (0:ℚ) < rgbMax r g b + rgbMin r g b := by
      by_cases h : rgbMin r g b = 0
      · have : 0 < rgbMax r g b := h ▸ hlt
        linarith
      · have : 0 < rgbMin r g b := lt_of_le_of_ne h0m (Ne.symm h)
        linarith
    exact div_pos (by linarith) hden

/-- With `q`/`p` computed from the source's `s` and `l`, `q` is exactly the
maximum channel (in the non-grayscale case). -/
theorem hslQv_eq_max (r g b : ℚ) (h0r : 0 ≤ r) (h1r : r ≤ 1) (h0g : 0 ≤ g)
    (h1g : g ≤ 1) (h0b : 0 ≤ b) (h1b : b ≤ 1)
    (hne : rgbMax r g b ≠ rgbMin r g b) :
    hslQv (hslS r g b) (hslL r g b) = rgbMax r g b := by
  have h1M : rgbMax r g b ≤ 1 := max_le h1r (max_le h1g h1b)
  have h0m : 0 ≤ rgbMin r g b := le_min h0r (le_min h0g h0b)
  have h2 : rgbMin r g b ≤ rgbMax r g b :=
    le_trans (rgbMin_le_r r g b) (r_le_rgbMax r g b)
  have hlt : rgbMin r g b < rgbMax r g b := lt_of_le_of_ne h2 (Ne.symm hne)
  unfold hslQv hslS
  rw [if_neg hne]
  by_cases hl : 1/2 < hslL r g b
  · rw [if_pos hl, if_neg (by linarith)]
    have hden : (0:ℚ) < 2 - rgbMax r g b - rgbMin r g b := by
      by_cases h : rgbMax r g b = 1
      · have : rgbMin r g b < 1 := h ▸ hlt
        linarith
      · have : rgbMax r g b < 1 := lt_of_le_of_ne h1M h
        linarith
    unfold hslL
    unfold hslL at hl
    field_simp
    ring
  · rw [if_neg hl]
    have hden : (0:ℚ) < rgbMax r g b + rgbMin r g b := by
      by_cases h : rgbMin r g b = 0
      · have : 0 < rgbMax r g b := h ▸ hlt
        linarith
      · have : 0 < rgbMin r g b := lt_of_le_of_ne h0m (Ne.symm h)
        linarith
    by_cases hl2 : hslL r g b < 1/2
    · rw [if_pos hl2]
      unfold hslL
      field_simp
      ring
    · rw [if_neg hl2]
      have hleq : hslL r g b = 1/2 := le_antisymm (by linarith) (by linarith)
      have hsum : rgbMax r g b + rgbMin r g b = 1 := by
        unfold hslL at hleq
        linarith
      rw [hsum]
      unfold hslL
      rw [hsum]
      field_simp
      linarith

/-- `adjustColor` from `src/lib/image/sampler.ts`: RGB→HSL,
`s' = clamp(s * saturation, 0, 1)`, `l' = clamp(l * brightness, 0, 1)`,
HSL→RGB. -/
def adjustColor (color : RGB) (saturation brightness : ℚ) : RGB :=
  hslToRgb
    (hslH ((color.r : ℚ) / 255) ((color.g : ℚ) / 255) ((color.b : ℚ) / 255))
    (min 1 (max 0
      (hslS ((color.r : ℚ) / 255) ((color.g : ℚ) / 255) ((color.b : ℚ) / 255) * saturation)))
    (min 1 (max 0
      (hslL ((color.r : ℚ) / 255) ((color.g : ℚ) / 255) ((color.b : ℚ) / 255) * brightness)))

/-- Converting RGB to HSL by the inlined formulas and back through
`hslToRgb` recovers each channel exactly (before the final rounding, which
then lands on the original byte). -/
theorem hslToRgb_roundtrip (r g b : ℚ) (h0r : 0 ≤ r) (h1r : r ≤ 1)
    (h0g : 0 ≤ g) (h1g : g ≤ 1) (h0b : 0 ≤ b) (h1b : b ≤ 1) :
    hslToRgb (hslH r g b) (hslS r g b) (hslL r g b) =
      { r := jround (r * 255), g := jround (g * 255), b := jround (b * 255) } := by
  by_cases hne : rgbMax r g b = rgbMin r g b
  · have hrM : r = rgbMax r g b :=
      le_antisymm (r_le_rgbMax r g b) (hne ▸ rgbMin_le_r r g b)
    have hgM : g = rgbMax r g b :=
      le_antisymm (g_le_rgbMax r g b) (hne ▸ rgbMin_le_g r g b)
    have hbM : b = rgbMax r g b :=
      le_antisymm (b_le_rgbMax r g b) (hne ▸ rgbMin_le_b r g b)
    have hS : hslS r g b = 0 := by
      unfold hslS
      rw [if_pos hne]
    have hL : hslL r g b = rgbMax r g b := by
      unfold hslL
      rw [← hne]
      ring
    unfold hslToRgb
    rw [if_pos hS, hL, ← hrM]
    have hg' : g = r := hgM.trans hrM.symm
    have hb' : b = r := hbM.trans hrM.symm
    rw [hg', hb']
  · unfold hslToRgb
    rw [if_neg (ne_of_gt (hslS_pos r g b h0r h1r h0g h1g h0b h1b hne))]
    rw [hslQv_eq_max r g b h0r h1r h0g h1g h0b h1b hne]
    have hp : 2 * hslL r g b - rgbMax r g b = rgbMin r g b := by
      unfold hslL
      ring
    rw [hp]
    obtain ⟨e1, e2, e3⟩ := hue2rgb_channels r g b hne
    rw [e1, e2, e3]

/-- C6's identity-adjustment fact: `adjustColor` with `saturation = 1` and
`brightness = 1` is the identity on byte-valued colors. -/
theorem adjustColor_id (c : RGB) (h0r : 0 ≤ c.r) (h1r : c.r ≤ 255)
    (h0g : 0 ≤ c.g) (h1g : c.g ≤ 255) (h0b : 0 ≤ c.b) (h1b : c.b ≤ 255) :
    adjustColor c 1 1 = c := by
  have q0r : (0:ℚ) ≤ (c.r : ℚ) / 255 := by
    apply div_nonneg _ (by norm_num)
    exact_mod_cast h0r
  have q1r : (c.r : ℚ) / 255 ≤ 1 := by
    rw [div_le_one (by norm_num)]
    exact_mod_cast h1r
  have q0g : (0:ℚ) ≤ (c.g : ℚ) / 255 := by
    apply div_nonneg _ (by norm_num)
    exact_mod_cast h0g
  have q1g : (c.g : ℚ) / 255 ≤ 1 := by
    rw [div_le_one (by norm_num)]
    exact_mod_cast h1g
  have q0b : (0:ℚ) ≤ (c.b : ℚ) / 255 := by
    apply div_nonneg _ (by norm_num)
    exact_mod_cast h0b
  have q1b : (c.b : ℚ) / 255 ≤ 1 := by
    rw [div_le_one (by norm_num)]
    exact_mod_cast h1b
  obtain ⟨hs0, hs1⟩ := hslS_mem _ _ _ q0r q1r q0g q1g q0b q1b
  obtain ⟨hl0, hl1⟩ := hslL_mem _ _ _ q0r q1r q0g q1g q0b q1b
  unfold adjustColor
  rw [mul_one, mul_one, max_eq_right hs0, min_eq_right hs1,
    max_eq_right hl0, min_eq_right hl1]
  rw [hslToRgb_roundtrip _ _ _ q0r q1r q0g q1g q0b q1b]
  have er : (c.r : ℚ) / 255 * 255 = ((c.r : ℤ) : ℚ) := by field_simp
  have eg : (c.g : ℚ) / 255 * 255 = ((c.g : ℤ) : ℚ) := by field_simp
  have eb : (c.b : ℚ) / 255 * 255 = ((c.b : ℤ) : ℚ) := by field_simp
  rw [er, eg, eb, jround_intCast, jround_intCast, jround_intCast]

instance : Inhabited RGB := ⟨⟨0, 0, 0⟩⟩

instance : Inhabited PointQ := ⟨⟨0, 0⟩⟩

/-- `pointInPolygon` from `src/lib/image/sampler.ts`: ray casting with the
classic `for (i = 0, j = n - 1; i < n; j = i++)` loop, toggling `inside`
when the edge `(j, i)` straddles the horizontal through the point and the
crossing lies to the right of it. -/
def pointInPolygon (point : PointQ) (polygon : List PointQ) : Bool :=
  (List.range polygon.length).foldl
    (fun inside i =>
      let pi := polygon.getD i default
      let pj := polygon.getD ((i + polygon.length - 1) % polygon.length) default
      if (decide (point.y < pi.y) != decide (point.y < pj.y)) &&
          decide (point.x < (pj.x - pi.x) * (point.y - pi.y) / (pj.y - pi.y) + pi.x)
      then !inside else inside)
    false

/-- `sampleCenterColor` from `src/lib/image/sampler.ts`: the pixel at the
centroid clamped into `[0, width-1] × [0, height-1]` (`getPixel` then
floors the coordinates). -/
def sampleCenterColor (imageData : ImageDataQ) (cell : VoronoiCell) : RGB :=
  getPixel imageData
    (clampQ cell.centroid.x 0 ((imageData.width : ℚ) - 1))
    (clampQ cell.centroid.y 0 ((imageData.height : ℚ) - 1))

/-- The integer pixel positions scanned by `sampleAverageColor`'s double
loop: the polygon's bounding box (`Math.floor` of the minima,
`Math.ceil` of the maxima, from the `±Infinity`-seeded min/max fold —
`minimum?`/`maximum?` return `none` exactly when the fold is left at its
`±Infinity` seeds, in which case the scan range is empty), clamped to
`[0, width-1] × [0, height-1]`, traversed row by row. -/
def sampledPositions (imageData : ImageDataQ) (polygon : List PointQ) :
    List (ℤ × ℤ) :=
  match (polygon.map PointQ.x).min?, (polygon.map PointQ.x).max?,
      (polygon.map PointQ.y).min?, (polygon.map PointQ.y).max? with
  | some minX, some maxX, some minY, some maxY =>
    ((List.range (min ((imageData.height : ℤ) - 1) ⌈maxY⌉ - max 0 ⌊minY⌋ + 1).toNat).map
      (fun k => max 0 ⌊minY⌋ + (k : ℤ))).flatMap
      (fun y =>
        ((List.range (min ((imageData.width : ℤ) - 1) ⌈maxX⌉ - max 0 ⌊minX⌋ + 1).toNat).map
          (fun k => max 0 ⌊minX⌋ + (k : ℤ))).map (fun x => (x, y)))
  | _, _, _, _ => []

/-- The scanned positions that the ray-casting test places inside the
polygon — the pixels accumulated by `sampleAverageColor`. -/
def insidePositions (imageData : ImageDataQ) (polygon : List PointQ) :
    List (ℤ × ℤ) :=
  (sampledPositions imageData polygon).filter
    (fun p => pointInPolygon ⟨(p.1 : ℚ), (p.2 : ℚ)⟩ polygon)

/-- `sampleAverageColor` from `src/lib/image/sampler.ts`: mean of the
pixels inside the polygon over the clamped bounding box; falls back to
`sampleCenterColor` when no pixel tested inside (`count === 0`). -/
def sampleAverageColor (imageData : ImageDataQ) (cell : VoronoiCell) : RGB :=
  if (insidePositions imageData cell.polygon).length = 0 then
    sampleCenterColor imageData cell
  else
    { r := jround
        ((((insidePositions imageData cell.polygon).map
          (fun p => (getPixel imageData (p.1 : ℚ) (p.2 : ℚ)).r)).sum : ℚ) /
          (insidePositions imageData cell.polygon).length),
      g := jround
        ((((insidePositions imageData cell.polygon).map
          (fun p => (getPixel imageData (p.1 : ℚ) (p.2 : ℚ)).g)).sum : ℚ) /
          (insidePositions imageData cell.polygon).length),
      b := jround
        ((((insidePositions imageData cell.polygon).map
          (fun p => (getPixel imageData (p.1 : ℚ) (p.2 : ℚ)).b)).sum : ℚ) /
          (insidePositions imageData cell.polygon).length) }

/-- C9: average-mode sampling recovers locally: a cell whose polygon
contains none of the scanned pixel positions of its bounding box gets the
center (exact) sample instead of failing; a cell with a non-empty
intersection gets the rounded per-channel mean of the pixels inside the
polygon. -/
theorem sampleAverageColor_spec (imageData : ImageDataQ) (cell : VoronoiCell) :
    ((∀ p ∈ sampledPositions imageData cell.polygon,
        ¬ pointInPolygon ⟨(p.1 : ℚ), (p.2 : ℚ)⟩ cell.polygon = true) →
      sampleAverageColor imageData cell = sampleCenterColor imageData cell) ∧
    ((∃ p ∈ sampledPositions imageData cell.polygon,
        pointInPolygon ⟨(p.1 : ℚ), (p.2 : ℚ)⟩ cell.polygon = true) →
      sampleAverageColor imageData cell =
        { r := jround
            ((((insidePositions imageData cell.polygon).map
              (fun p => (getPixel imageData (p.1 : ℚ) (p.2 : ℚ)).r)).sum : ℚ) /
              (insidePositions imageData cell.polygon).length),
          g := jround
            ((((insidePositions imageData cell.polygon).map
              (fun p => (getPixel imageData (p.1 : ℚ) (p.2 : ℚ)).g)).sum : ℚ) /
              (insidePositions imageData cell.polygon).length),
          b := jround
            ((((insidePositions imageData cell.polygon).map
              (fun p => (getPixel imageData (p.1 : ℚ) (p.2 : ℚ)).b)).sum : ℚ) /
              (insidePositions imageData cell.polygon).length) }) := by
  constructor
  · intro hnone
    have hempty : insidePositions imageData cell.polygon = [] := by
      unfold insidePositions
      rw [List.filter_eq_nil_iff]
      intro p hp
      simpa using hnone p hp
    unfold sampleAverageColor
    rw [if_pos (by rw [hempty]; rfl)]
  · intro ⟨p, hp, hin⟩
    have hmem : p ∈ insidePositions imageData cell.polygon := by
      unfold insidePositions
      rw [List.mem_filter]
      exact ⟨hp, by simpa using hin⟩
    have hne : (insidePositions imageData cell.polygon).length ≠ 0 := by
      intro h
      rw [List.length_eq_zero] at h
      rw [h] at hmem
      exact absurd hmem (List.not_mem_nil p)
    unfold sampleAverageColor
    rw [if_neg hne]

def c9Img : ImageDataQ := ⟨1, 1, [5, 6, 7, 255]⟩

def c9Cell : VoronoiCell := ⟨0, [⟨-1, -1⟩, ⟨2, -1⟩, ⟨0, 2⟩], ⟨1/3, 0⟩⟩

theorem sampleAverageColor_spec_witness :
    (∃ p ∈ sampledPositions c9Img c9Cell.polygon,
        pointInPolygon ⟨(p.1 : ℚ), (p.2 : ℚ)⟩ c9Cell.polygon = true) ∧
    sampleAverageColor c9Img c9Cell =
      { r := jround
          ((((insidePositions c9Img c9Cell.polygon).map
            (fun p => (getPixel c9Img (p.1 : ℚ) (p.2 : ℚ)).r)).sum : ℚ) /
            (insidePositions c9Img c9Cell.polygon).length),
        g := jround
          ((((insidePositions c9Img c9Cell.polygon).map
            (fun p => (getPixel c9Img (p.1 : ℚ) (p.2 : ℚ)).g)).sum : ℚ) /
            (insidePositions c9Img c9Cell.polygon).length),
        b := jround
          ((((insidePositions c9Img c9Cell.polygon).map
            (fun p => (getPixel c9Img (p.1 : ℚ) (p.2 : ℚ)).b)).sum : ℚ) /
            (insidePositions c9Img c9Cell.polygon).length) } := by
  have hmem : ((0 : ℤ), (0 : ℤ)) ∈ sampledPositions c9Img c9Cell.polygon := by
    have h : sampledPositions c9Img c9Cell.polygon = [((0 : ℤ), (0 : ℤ))] := by
      with_unfolding_all rfl
    rw [h]
    exact List.mem_singleton.mpr rfl
  have hin : pointInPolygon ⟨(((0 : ℤ) : ℚ)), (((0 : ℤ) : ℚ))⟩ c9Cell.polygon = true := by
    with_unfolding_all rfl
  exact ⟨⟨(0, 0), hmem, hin⟩,
    (sampleAverageColor_spec c9Img c9Cell).2 ⟨(0, 0), hmem, hin⟩⟩

/-! ## Color palettes (`src/lib/color-palettes.ts`) -/

/-- `ColorMode` from `src/types/index.ts`. -/
inductive ColorMode where
  | exact : ColorMode
  | average : ColorMode
  | palette : ColorMode
deriving DecidableEq, Repr

/-- `ColorPaletteId` from `src/lib/color-palettes.ts` / `src/types`. -/
inductive ColorPaletteId where
  | original | tiffanyClassic | gothicCathedral | artNouveau | sunsetWarm
  | oceanCool | forest | modernMinimal | monochromeBlue | sepiaVintage
  | jewelTones | earthTones | pastelDream
deriving DecidableEq, Repr

/-- `ColorPalette` from `src/lib/color-palettes.ts`. -/
structure ColorPalette where
  id : ColorPaletteId
  name : String
  category : String
  colors : List RGB
deriving DecidableEq, Repr

/-- `COLOR_PALETTES` from `src/lib/color-palettes.ts`. -/
def COLOR_PALETTES : List ColorPalette := [
  ⟨.tiffanyClassic, "Tiffany Classic", "traditional",
    [⟨0, 71, 171⟩, ⟨65, 105, 225⟩, ⟨135, 170, 222⟩, ⟨0, 155, 119⟩,
     ⟨0, 100, 80⟩, ⟨100, 180, 150⟩, ⟨255, 191, 0⟩, ⟨255, 220, 100⟩,
     ⟨155, 17, 30⟩, ⟨200, 50, 60⟩, ⟨255, 253, 208⟩, ⟨40, 40, 40⟩]⟩,
  ⟨.gothicCathedral, "Gothic Cathedral", "traditional",
    [⟨75, 0, 130⟩, ⟨128, 0, 128⟩, ⟨148, 87, 166⟩, ⟨139, 0, 0⟩,
     ⟨180, 30, 30⟩, ⟨220, 80, 80⟩, ⟨25, 25, 112⟩, ⟨70, 70, 150⟩,
     ⟨255, 215, 0⟩, ⟨218, 165, 32⟩, ⟨20, 20, 20⟩, ⟨80, 80, 80⟩]⟩,
  ⟨.artNouveau, "Art Nouveau", "traditional",
    [⟨143, 188, 143⟩, ⟨34, 139, 34⟩, ⟨85, 130, 85⟩, ⟨180, 210, 180⟩,
     ⟨199, 144, 165⟩, ⟨160, 100, 130⟩, ⟨220, 180, 195⟩, ⟨184, 115, 51⟩,
     ⟨140, 80, 30⟩, ⟨210, 155, 100⟩, ⟨255, 253, 208⟩, ⟨60, 50, 40⟩]⟩,
  ⟨.sunsetWarm, "Sunset Warm", "moods",
    [⟨255, 127, 80⟩, ⟨255, 165, 0⟩, ⟨255, 200, 150⟩, ⟨255, 99, 71⟩,
     ⟨200, 60, 40⟩, ⟨128, 0, 32⟩, ⟨255, 191, 0⟩, ⟨255, 215, 0⟩,
     ⟨255, 240, 150⟩, ⟨80, 20, 20⟩, ⟨50, 30, 20⟩]⟩,
  ⟨.oceanCool, "Ocean Cool", "moods",
    [⟨0, 128, 128⟩, ⟨0, 180, 180⟩, ⟨100, 180, 180⟩, ⟨0, 0, 128⟩,
     ⟨0, 80, 160⟩, ⟨100, 149, 237⟩, ⟨143, 188, 143⟩, ⟨60, 140, 120⟩,
     ⟨192, 192, 192⟩, ⟨220, 230, 240⟩, ⟨255, 255, 255⟩, ⟨30, 40, 50⟩]⟩,
  ⟨.forest, "Forest", "moods",
    [⟨0, 155, 119⟩, ⟨0, 100, 70⟩, ⟨85, 107, 47⟩, ⟨34, 80, 34⟩,
     ⟨144, 180, 120⟩, ⟨139, 90, 43⟩, ⟨90, 60, 30⟩, ⟨180, 130, 80⟩,
     ⟨218, 165, 32⟩, ⟨255, 253, 208⟩, ⟨30, 30, 20⟩]⟩,
  ⟨.modernMinimal, "Modern Minimal", "artistic",
    [⟨255, 0, 0⟩, ⟨180, 0, 0⟩, ⟨255, 100, 100⟩, ⟨0, 0, 255⟩,
     ⟨0, 0, 180⟩, ⟨100, 100, 255⟩, ⟨255, 255, 0⟩, ⟨200, 200, 0⟩,
     ⟨255, 255, 150⟩, ⟨0, 0, 0⟩, ⟨128, 128, 128⟩, ⟨255, 255, 255⟩]⟩,
  ⟨.monochromeBlue, "Monochrome Blue", "artistic",
    [⟨0, 0, 30⟩, ⟨0, 0, 51⟩, ⟨0, 30, 80⟩, ⟨0, 51, 102⟩, ⟨0, 80, 140⟩,
     ⟨0, 102, 153⟩, ⟨30, 130, 180⟩, ⟨51, 153, 204⟩, ⟨100, 180, 230⟩,
     ⟨153, 204, 255⟩, ⟨180, 220, 255⟩, ⟨204, 229, 255⟩, ⟨230, 242, 255⟩]⟩,
  ⟨.sepiaVintage, "Sepia Vintage", "artistic",
    [⟨40, 25, 10⟩, ⟨70, 45, 20⟩, ⟨112, 66, 20⟩, ⟨140, 90, 50⟩,
     ⟨160, 120, 80⟩, ⟨180, 155, 100⟩, ⟨195, 165, 120⟩, ⟨210, 180, 140⟩,
     ⟨225, 205, 170⟩, ⟨245, 235, 210⟩, ⟨255, 250, 235⟩]⟩,
  ⟨.jewelTones, "Jewel Tones", "artistic",
    [⟨155, 17, 30⟩, ⟨200, 50, 70⟩, ⟨100, 10, 20⟩, ⟨15, 82, 186⟩,
     ⟨60, 120, 210⟩, ⟨10, 50, 120⟩, ⟨0, 155, 119⟩, ⟨50, 190, 150⟩,
     ⟨0, 100, 80⟩, ⟨155, 89, 182⟩, ⟨100, 50, 130⟩, ⟨255, 191, 0⟩,
     ⟨200, 150, 0⟩, ⟨30, 30, 30⟩]⟩,
  ⟨.earthTones, "Earth Tones", "artistic",
    [⟨139, 90, 43⟩, ⟨90, 55, 25⟩, ⟨180, 130, 80⟩, ⟨210, 180, 140⟩,
     ⟨240, 220, 190⟩, ⟨188, 143, 143⟩, ⟨150, 110, 110⟩, ⟨85, 107, 47⟩,
     ⟨55, 75, 30⟩, ⟨130, 150, 90⟩, ⟨105, 105, 105⟩, ⟨60, 60, 55⟩,
     ⟨160, 160, 150⟩]⟩,
  ⟨.pastelDream, "Pastel Dream", "artistic",
    [⟨255, 182, 193⟩, ⟨255, 220, 225⟩, ⟨220, 150, 165⟩, ⟨173, 216, 230⟩,
     ⟨200, 230, 245⟩, ⟨140, 180, 200⟩, ⟨255, 255, 200⟩, ⟨255, 255, 230⟩,
     ⟨230, 220, 160⟩, ⟨200, 255, 200⟩, ⟨160, 210, 160⟩, ⟨230, 190, 255⟩,
     ⟨200, 160, 220⟩, ⟨255, 255, 255⟩]⟩]

/-- `colorDistance` from `src/lib/color-palettes.ts`: the redmean
perceptual distance (`Math.sqrt` ⇒ real-valued). -/
noncomputable def colorDistance (c1 c2 : RGB) : ℝ :=
  Real.sqrt
    ((2 + (((c1.r : ℝ) + (c2.r : ℝ)) / 2) / 256) *
        ((c1.r : ℝ) - (c2.r : ℝ)) * ((c1.r : ℝ) - (c2.r : ℝ)) +
      4 * ((c1.g : ℝ) - (c2.g : ℝ)) * ((c1.g : ℝ) - (c2.g : ℝ)) +
      (2 + (255 - ((c1.r : ℝ) + (c2.r : ℝ)) / 2) / 256) *
        ((c1.b : ℝ) - (c2.b : ℝ)) * ((c1.b : ℝ) - (c2.b : ℝ)))

/-- `findNearestColor` from `src/lib/color-palettes.ts`: linear scan
keeping the first color attaining the least distance (`nearest` starts at
`palette[0]`, the loop runs from index 1 with a strict comparison). -/
noncomputable def findNearestColor (target : RGB) (palette : List RGB) : RGB :=
  (palette.tail.foldl
    (fun acc c =>
      if colorDistance target c < acc.2 then (c, colorDistance target c) else acc)
    (palette.headD default, colorDistance target (palette.headD default))).1

/-- `getPaletteById` from `src/lib/color-palettes.ts`. -/
def getPaletteById (id : ColorPaletteId) : Option ColorPalette :=
  if id = ColorPaletteId.original then none
  else COLOR_PALETTES.find? (fun p => p.id == id)

/-- `applyPalette` from `src/lib/color-palettes.ts`. -/
noncomputable def applyPalette (colors : List RGB) (paletteId : ColorPaletteId) :
    List RGB :=
  if paletteId = ColorPaletteId.original then colors
  else
    match getPaletteById paletteId with
    | none => colors
    | some palette => colors.map (fun c => findNearestColor c palette.colors)

theorem applyPalette_original (colors : List RGB) :
    applyPalette colors ColorPaletteId.original = colors := by
  unfold applyPalette
  rw [if_pos rfl]

/-! ## k-means quantization (`src/lib/image/sampler.ts`) -/

/-- The squared-RGB distance used by `quantizeColors`
(`Math.pow(Δr,2) + Math.pow(Δg,2) + Math.pow(Δb,2)`). -/
def sqDist (c1 c2 : RGB) : ℤ :=
  (c1.r - c2.r) ^ 2 + (c1.g - c2.g) ^ 2 + (c1.b - c2.b) ^ 2

/-- The argmin scan of `quantizeColors` (`minDist` starts at `Infinity`,
so the first centroid always loads; ties keep the earlier index because
the comparison is strict). -/
def nearestCentroidIdx (color : RGB) (centroids : List RGB) : ℕ :=
  (List.range centroids.length).foldl
    (fun best i =>
      if sqDist color (centroids.getD i default) <
          sqDist color (centroids.getD best default) then i else best)
    0

/-- One k-means iteration of `quantizeColors`: assign every color to its
nearest centroid, then replace each centroid by the rounded mean of its
cluster (kept unchanged when the cluster is empty). -/
def kmeansStep (colors : List RGB) (centroids : List RGB) : List RGB :=
  (List.range centroids.length).map (fun i =>
    if 0 < (colors.filter (fun c => nearestCentroidIdx c centroids == i)).length then
      { r := jround
          ((((colors.filter (fun c => nearestCentroidIdx c centroids == i)).map
            RGB.r).sum : ℚ) /
            (colors.filter (fun c => nearestCentroidIdx c centroids == i)).length),
        g := jround
          ((((colors.filter (fun c => nearestCentroidIdx c centroids == i)).map
            RGB.g).sum : ℚ) /
            (colors.filter (fun c => nearestCentroidIdx c centroids == i)).length),
        b := jround
          ((((colors.filter (fun c => nearestCentroidIdx c centroids == i)).map
            RGB.b).sum : ℚ) /
            (colors.filter (fun c => nearestCentroidIdx c centroids == i)).length) }
    else centroids.getD i default)

/-- `quantizeColors` from `src/lib/image/sampler.ts`: centroids seeded by
an even stride through the input, 10 k-means iterations, then each color
mapped to its nearest centroid. -/
def quantizeColors (colors : List RGB) (paletteSize : ℕ) : List RGB :=
  if colors.length ≤ paletteSize then colors
  else
    colors.map (fun c =>
      ((kmeansStep colors)^[10]
          ((List.range paletteSize).map
            (fun i => colors.getD (min (i * (colors.length / paletteSize))
              (colors.length - 1)) default))).getD
        (nearestCentroidIdx c
          ((kmeansStep colors)^[10]
            ((List.range paletteSize).map
              (fun i => colors.getD (min (i * (colors.length / paletteSize))
                (colors.length - 1)) default))))
        default)

/-- `sampleColors` from `src/lib/image/sampler.ts`: raw per-cell samples
(center or polygon mean), optional k-means quantization for
`mode = palette`, preset-palette mapping, then saturation/brightness
adjustment, in that order. -/
noncomputable def sampleColors (imageData : ImageDataQ) (cells : List VoronoiCell)
    (mode : ColorMode) (paletteSize : ℕ) (saturation brightness : ℚ)
    (colorPalette : ColorPaletteId) : List RGB :=
  (applyPalette
    (if mode = ColorMode.palette then
      quantizeColors
        (cells.map (fun cell =>
          if mode = ColorMode.average then sampleAverageColor imageData cell
          else sampleCenterColor imageData cell)) paletteSize
    else
      cells.map (fun cell =>
        if mode = ColorMode.average then sampleAverageColor imageData cell
        else sampleCenterColor imageData cell))
    colorPalette).map (fun c => adjustColor c saturation brightness)

theorem list_getD_le (l : List ℕ) (n : ℕ) (h : ∀ v ∈ l, v ≤ 255) :
    l.getD n 0 ≤ 255 := by
  by_cases hn : n < l.length
  · rw [List.getD_eq_getElem _ _ hn]
    exact h _ (List.getElem_mem hn)
  · rw [List.getD_eq_default _ _ (by omega)]
    norm_num

theorem getPixel_r_bounds (img : ImageDataQ) (h : ∀ v ∈ img.data, v ≤ 255)
    (x y : ℚ) : 0 ≤ (getPixel img x y).r ∧ (getPixel img x y).r ≤ 255 := by
  unfold getPixel
  dsimp only
  exact ⟨by positivity, by exact_mod_cast list_getD_le _ _ h⟩

theorem getPixel_g_bounds (img : ImageDataQ) (h : ∀ v ∈ img.data, v ≤ 255)
    (x y : ℚ) : 0 ≤ (getPixel img x y).g ∧ (getPixel img x y).g ≤ 255 := by
  unfold getPixel
  dsimp only
  exact ⟨by positivity, by exact_mod_cast list_getD_le _ _ h⟩

theorem getPixel_b_bounds (img : ImageDataQ) (h : ∀ v ∈ img.data, v ≤ 255)
    (x y : ℚ) : 0 ≤ (getPixel img x y).b ∧ (getPixel img x y).b ≤ 255 := by
  unfold getPixel
  dsimp only
  exact ⟨by positivity, by exact_mod_cast list_getD_le _ _ h⟩

theorem floor_clamp (x : ℚ) (w : ℕ) (hx0 : 0 ≤ x) (hx1 : x < (w : ℚ)) :
    ⌊clampQ x 0 ((w : ℚ) - 1)⌋ = ⌊x⌋ := by
  unfold clampQ
  rw [max_eq_left hx0]
  by_cases h : x ≤ (w : ℚ) - 1
  · rw [min_eq_left h]
  · rw [min_eq_right (le_of_not_le h)]
    have ha : ⌊(w : ℚ) - 1⌋ = (w : ℤ) - 1 := by
      rw [show ((w : ℚ) - 1) = (((w : ℤ) - 1 : ℤ) : ℚ) by push_cast; ring,
        Int.floor_intCast]
    have hb : ⌊x⌋ = (w : ℤ) - 1 := by
      rw [Int.floor_eq_iff]
      constructor
      · push_cast
        linarith
      · push_cast
        linarith
    rw [ha, hb]

/-- In-bounds centroids make the clamp of `sampleCenterColor` a no-op (up
to the flooring that `getPixel` performs anyway). -/
theorem sampleCenterColor_inBounds (img : ImageDataQ) (cell : VoronoiCell)
    (hx0 : 0 ≤ cell.centroid.x) (hx1 : cell.centroid.x < (img.width : ℚ))
    (hy0 : 0 ≤ cell.centroid.y) (hy1 : cell.centroid.y < (img.height : ℚ)) :
    sampleCenterColor img cell = getPixel img cell.centroid.x cell.centroid.y := by
  unfold sampleCenterColor getPixel
  rw [floor_clamp _ _ hx0 hx1, floor_clamp _ _ hy0 hy1]

/-- C6 (amended): for cells whose centroid lies within the image,
color sampling in `exact` mode with identity adjustments
(`saturation = 1`, `brightness = 1`, palette `original`) returns exactly
`get_pixel(centroid)`, where `get_pixel` floors its coordinates — i.e.
the pixel at the floored (not rounded) centroid. -/
theorem sampleColors_exact_identity (imageData : ImageDataQ)
    (cells : List VoronoiCell) (paletteSize : ℕ)
    (hdata : ∀ v ∈ imageData.data, v ≤ 255)
    (hcells : ∀ cell ∈ cells,
      0 ≤ cell.centroid.x ∧ cell.centroid.x < (imageData.width : ℚ) ∧
      0 ≤ cell.centroid.y ∧ cell.centroid.y < (imageData.height : ℚ)) :
    sampleColors imageData cells ColorMode.exact paletteSize 1 1
        ColorPaletteId.original =
      cells.map (fun cell => getPixel imageData cell.centroid.x cell.centroid.y) := by
  unfold sampleColors
  rw [if_neg (show ¬ ColorMode.exact = ColorMode.palette by decide),
    applyPalette_original, List.map_map]
  apply List.map_congr_left
  intro cell hcell
  obtain ⟨hx0, hx1, hy0, hy1⟩ := hcells cell hcell
  show adjustColor
      (if ColorMode.exact = ColorMode.average then sampleAverageColor imageData cell
        else sampleCenterColor imageData cell) 1 1 = _
  rw [if_neg (show ¬ ColorMode.exact = ColorMode.average by decide),
    sampleCenterColor_inBounds _ _ hx0 hx1 hy0 hy1]
  exact adjustColor_id _
    (getPixel_r_bounds imageData hdata _ _).1 (getPixel_r_bounds imageData hdata _ _).2
    (getPixel_g_bounds imageData hdata _ _).1 (getPixel_g_bounds imageData hdata _ _).2
    (getPixel_b_bounds imageData hdata _ _).1 (getPixel_b_bounds imageData hdata _ _).2

def c6Img : ImageDataQ := ⟨2, 1, [10, 20, 30, 255, 200, 100, 50, 255]⟩

def c6Cell : VoronoiCell := ⟨0, [⟨0, 0⟩, ⟨1, 0⟩, ⟨0, 1⟩], ⟨7/10, 0⟩⟩

/-- C6, counterexample: with a centroid at `x = 0.7` inside a 2×1 image,
exact-mode sampling with identity adjustments returns the pixel at
`floor(0.7) = 0`, not the pixel at `round(0.7) = 1` that the claim
predicts. -/
theorem sampleColors_round_counterexample :
    sampleColors c6Img [c6Cell] ColorMode.exact 16 1 1 ColorPaletteId.original =
      [⟨10, 20, 30⟩] ∧
    getPixel c6Img ((jround (7/10) : ℤ) : ℚ) ((jround 0 : ℤ) : ℚ) = ⟨200, 100, 50⟩ ∧
    (⟨10, 20, 30⟩ : RGB) ≠ ⟨200, 100, 50⟩ := by
  refine ⟨?_, ?_, by decide⟩
  · with_unfolding_all rfl
  · with_unfolding_all rfl

theorem sampleColors_exact_identity_witness :
    (∀ v ∈ c6Img.data, v ≤ 255) ∧
    sampleColors c6Img [c6Cell] ColorMode.exact 16 1 1 ColorPaletteId.original =
      [c6Cell].map (fun cell => getPixel c6Img cell.centroid.x cell.centroid.y) := by
  have hdata : ∀ v ∈ c6Img.data, v ≤ 255 := by decide
  have hcells : ∀ cell ∈ [c6Cell],
      0 ≤ cell.centroid.x ∧ cell.centroid.x < (c6Img.width : ℚ) ∧
      0 ≤ cell.centroid.y ∧ cell.centroid.y < (c6Img.height : ℚ) := by
    intro cell hcell
    rw [List.mem_singleton] at hcell
    subst hcell
    refine ⟨by norm_num [c6Cell], by norm_num [c6Cell, c6Img], by norm_num [c6Cell],
      by norm_num [c6Cell, c6Img]⟩
  exact ⟨hdata, sampleColors_exact_identity c6Img [c6Cell] 16 hdata hcells⟩

/-! ## Component B: edge magnitude (`src/workers/image.worker.ts`)

Modelled over `ℝ`: the worker computes with `Math.sqrt`, `Math.atan2`,
`Math.exp` and `Math.PI`, which become the exact real functions.  Arrays
are lists of reals indexed row-major. -/

/-- `SOBEL_X` from `src/workers/image.worker.ts`. -/
def SOBEL_X : List ℝ := [-1, 0, 1, -2, 0, 2, -1, 0, 1]

/-- `SOBEL_Y` from `src/workers/image.worker.ts`. -/
def SOBEL_Y : List ℝ := [-1, -2, -1, 0, 0, 0, 1, 2, 1]

/-- `toGrayscale` from the worker: `0.299 R + 0.587 G + 0.114 B` per
pixel. -/
noncomputable def toGrayscale (data : List ℕ) (width height : ℕ) : List ℝ :=
  (List.range (width * height)).map (fun i =>
    0.299 * (data.getD (i * 4) 0 : ℝ) + 0.587 * (data.getD (i * 4 + 1) 0 : ℝ) +
      0.114 * (data.getD (i * 4 + 2) 0 : ℝ))

/-- `convolve` from the worker: 3×3 kernel application at `(x, y)` with
clamp-to-edge sampling (`ky`/`kx` here run over `0..2` in place of the
source's `-1..1`, with the same kernel index `ky*3+kx`). -/
noncomputable def convolve (gray : List ℝ) (width height : ℕ) (x y : ℤ)
    (kernel : List ℝ) : ℝ :=
  ((List.range 3).map (fun (ky : ℕ) =>
    ((List.range 3).map (fun (kx : ℕ) =>
      gray.getD
        ((min (max (y + (ky : ℤ) - 1) 0) ((height : ℤ) - 1)).toNat * width +
          (min (max (x + (kx : ℤ) - 1) 0) ((width : ℤ) - 1)).toNat) 0 *
        kernel.getD (ky * 3 + kx) 0)).sum)).sum

/-- `Math.atan2`, modelled piecewise through `Real.arctan` (range
`(-π, π]`, `atan2 0 0 = 0`). -/
noncomputable def jatan2 (y x : ℝ) : ℝ :=
  if 0 < x then Real.arctan (y / x)
  else if x < 0 then
    (if 0 ≤ y then Real.arctan (y / x) + Real.pi
     else Real.arctan (y / x) - Real.pi)
  else
    (if 0 < y then Real.pi / 2 else if y < 0 then -(Real.pi / 2) else 0)

/-- The gradient magnitudes of `computeGradients` (also the inner loop of
`detectEdgesSobel`): `√(gx² + gy²)` per pixel, row-major. -/
noncomputable def gradientMagnitudes (gray : List ℝ) (width height : ℕ) : List ℝ :=
  (List.range (width * height)).map (fun (i : ℕ) =>
    Real.sqrt
      (convolve gray width height (i % width) (i / width) SOBEL_X ^ 2 +
        convolve gray width height (i % width) (i / width) SOBEL_Y ^ 2))

/-- The gradient directions of `computeGradients`: `atan2 gy gx`. -/
noncomputable def gradientDirections (gray : List ℝ) (width height : ℕ) : List ℝ :=
  (List.range (width * height)).map (fun (i : ℕ) =>
    jatan2 (convolve gray width height (i % width) (i / width) SOBEL_Y)
      (convolve gray width height (i % width) (i / width) SOBEL_X))

/-- The JavaScript `%` (fmod) against 180, used on a non-negative operand
in `nonMaxSuppression`, where it agrees with the mathematical modulus. -/
noncomputable def jmod180 (a : ℝ) : ℝ := a - 180 * ⌊a / 180⌋

/-- `nonMaxSuppression` from the worker: interior pixels keep their
magnitude when it is `≥` both neighbours along the gradient direction
binned to 0°/45°/90°/135°; every other entry of the freshly allocated
result stays 0. -/
noncomputable def nonMaxSuppression (magnitude direction : List ℝ)
    (width height : ℕ) : List ℝ :=
  (List.range (width * height)).map (fun i =>
    if 0 < i % width ∧ i % width + 1 < width ∧ 0 < i / width ∧
        i / width + 1 < height then
      if (if jmod180 (direction.getD i 0 * 180 / Real.pi + 180) < 22.5 ∨
            157.5 ≤ jmod180 (direction.getD i 0 * 180 / Real.pi + 180) then
            magnitude.getD (i - 1) 0 ≤ magnitude.getD i 0 ∧
              magnitude.getD (i + 1) 0 ≤ magnitude.getD i 0
          else if jmod180 (direction.getD i 0 * 180 / Real.pi + 180) < 67.5 then
            magnitude.getD ((i / width - 1) * width + (i % width + 1)) 0 ≤
              magnitude.getD i 0 ∧
            magnitude.getD ((i / width + 1) * width + (i % width - 1)) 0 ≤
              magnitude.getD i 0
          else if jmod180 (direction.getD i 0 * 180 / Real.pi + 180) < 112.5 then
            magnitude.getD ((i / width - 1) * width + i % width) 0 ≤
              magnitude.getD i 0 ∧
            magnitude.getD ((i / width + 1) * width + i % width) 0 ≤
              magnitude.getD i 0
          else
            magnitude.getD ((i / width - 1) * width + (i % width - 1)) 0 ≤
              magnitude.getD i 0 ∧
            magnitude.getD ((i / width + 1) * width + (i % width + 1)) 0 ≤
              magnitude.getD i 0) then
        magnitude.getD i 0
      else 0
    else 0)

/-- The marking pass of `hysteresisThreshold`: `STRONG = 255` at
`≥ high`, `WEAK = 50` at `≥ low`, 0 otherwise. -/
noncomputable def hystMark (edges : List ℝ) (low high : ℝ) : List ℝ :=
  edges.map (fun v => if high ≤ v then (255 : ℝ) else if low ≤ v then 50 else 0)

/-- The interior pixel coordinates `(x, y)` swept by the promotion loop,
row-major (`y` from 1 to `height-2`, `x` from 1 to `width-2`). -/
def hystCoords (width height : ℕ) : List (ℕ × ℕ) :=
  (List.range (height - 2)).flatMap (fun y0 =>
    (List.range (width - 2)).map (fun x0 => (x0 + 1, y0 + 1)))

/-- The 3×3 neighbourhood offsets scanned for a STRONG neighbour. -/
def offsets9 : List (ℤ × ℤ) :=
  [(-1, -1), (0, -1), (1, -1), (-1, 0), (0, 0), (1, 0), (-1, 1), (0, 1), (1, 1)]

/-- Number of WEAK entries, the termination measure of the promotion
loop. -/
noncomputable def weakCount (st : List ℝ) : ℕ :=
  st.countP (fun v => decide (v = (50 : ℝ)))

theorem weakCount_set_255 (l : List ℝ) (idx : ℕ) (h : l.getD idx 0 = 50) :
    weakCount (l.set idx 255) < weakCount l := by
  induction l generalizing idx with
  | nil =>
    rw [List.getD] at h
    norm_num at h
  | cons a l ih =>
    cases idx with
    | zero =>
      have ha : a = 50 := h
      unfold weakCount
      rw [List.set_cons_zero, List.countP_cons, List.countP_cons]
      have h255 : ¬ ((255 : ℝ) = 50) := by norm_num
      have h50 : (50 : ℝ) = 50 := rfl
      simp [ha, h255]
    | succ n =>
      have h' : l.getD n 0 = 50 := h
      unfold weakCount
      rw [List.set_cons_succ, List.countP_cons, List.countP_cons]
      have := ih n h'
      unfold weakCount at this
      omega

/-- One pixel of the promotion sweep: a WEAK pixel with a STRONG
8-neighbour (the scan includes the pixel itself, which is WEAK and hence
never matches) becomes STRONG and sets the `changed` flag. -/
noncomputable def hystStep (width : ℕ) (acc : List ℝ × Bool) (p : ℕ × ℕ) :
    List ℝ × Bool :=
  if acc.1.getD (p.2 * width + p.1) 0 = 50 ∧
      offsets9.any (fun d =>
        decide (acc.1.getD
          (((p.2 : ℤ) + d.2).toNat * width + ((p.1 : ℤ) + d.1).toNat) 0 =
          (255 : ℝ))) then
    (acc.1.set (p.2 * width + p.1) 255, true)
  else acc

/-- One whole sweep of the promotion loop, with the source's in-place
update order. -/
noncomputable def hystSweep (width height : ℕ) (st : List ℝ) : List ℝ × Bool :=
  (hystCoords width height).foldl (hystStep width) (st, false)

theorem hystStep_weak (width : ℕ) (acc : List ℝ × Bool) (p : ℕ × ℕ) :
    (weakCount (hystStep width acc p).1 ≤ weakCount acc.1 ∧
      (hystStep width acc p).1.length = acc.1.length) ∧
    ((hystStep width acc p).2 = true →
      acc.2 = true ∨ weakCount (hystStep width acc p).1 < weakCount acc.1) := by
  unfold hystStep
  split
  · next hcond =>
    refine ⟨⟨le_of_lt (weakCount_set_255 _ _ hcond.1), List.length_set _ _ _⟩, ?_⟩
    intro _
    exact Or.inr (weakCount_set_255 _ _ hcond.1)
  · exact ⟨⟨le_refl _, rfl⟩, fun h => Or.inl h⟩

theorem hystFold_weak (width : ℕ) (coords : List (ℕ × ℕ)) (acc : List ℝ × Bool) :
    (weakCount (coords.foldl (hystStep width) acc).1 ≤ weakCount acc.1 ∧
      (coords.foldl (hystStep width) acc).1.length = acc.1.length) ∧
    ((coords.foldl (hystStep width) acc).2 = true →
      acc.2 = true ∨
        weakCount (coords.foldl (hystStep width) acc).1 < weakCount acc.1) := by
  induction coords generalizing acc with
  | nil => exact ⟨⟨le_refl _, rfl⟩, fun h => Or.inl h⟩
  | cons p coords ih =>
    rw [List.foldl_cons]
    obtain ⟨⟨hstep_le, hstep_len⟩, hstep_fl⟩ := hystStep_weak width acc p
    obtain ⟨⟨hrest_le, hrest_len⟩, hrest_fl⟩ := ih (hystStep width acc p)
    refine ⟨⟨le_trans hrest_le hstep_le, hrest_len.trans hstep_len⟩, ?_⟩
    intro hfl
    rcases hrest_fl hfl with hfl2 | hlt
    · rcases hstep_fl hfl2 with h | h
      · exact Or.inl h
      · exact Or.inr (lt_of_le_of_lt hrest_le h)
    · exact Or.inr (lt_of_lt_of_le hlt hstep_le)

theorem hystSweep_changed_lt (width height : ℕ) (st : List ℝ)
    (h : (hystSweep width height st).2 = true) :
    weakCount (hystSweep width height st).1 < weakCount st := by
  unfold hystSweep at h ⊢
  rcases (hystFold_weak width (hystCoords width height) (st, false)).2 h with h2 | h2
  · exact absurd h2 (by simp)
  · exact h2

theorem hystSweep_length (width height : ℕ) (st : List ℝ) :
    (hystSweep width height st).1.length = st.length :=
  (hystFold_weak width (hystCoords width height) (st, false)).1.2

/-- The promotion loop of `hysteresisThreshold`
(`while (changed) { changed = false; … }`), by well-founded recursion on
the number of WEAK entries: a sweep that reports a change has strictly
fewer WEAK pixels left. -/
noncomputable def hystLoop (width height : ℕ) (st : List ℝ) : List ℝ :=
  if h : (hystSweep width height st).2 = true then
    hystLoop width height (hystSweep width height st).1
  else st
termination_by weakCount st
decreasing_by exact hystSweep_changed_lt width height st h

theorem hystLoop_length (width height : ℕ) (st : List ℝ) :
    (hystLoop width height st).length = st.length := by
  generalize hn : weakCount st = n
  induction n using Nat.strong_induction_on generalizing st with
  | _ n ih =>
    rw [hystLoop]
    split
    · next h =>
      rw [ih (weakCount (hystSweep width height st).1)
        (hn ▸ hystSweep_changed_lt width height st h) _ rfl]
      exact hystSweep_length width height st
    · rfl

/-- `hysteresisThreshold` from the worker: mark, promote to fixed point,
binarize (`STRONG → 1`, everything else `→ 0`). -/
noncomputable def hysteresisThreshold (edges : List ℝ) (width height : ℕ)
    (lowThreshold highThreshold : ℝ) : List ℝ :=
  (hystLoop width height (hystMark edges lowThreshold highThreshold)).map
    (fun v => if v = 255 then (1 : ℝ) else 0)

/-- `detectEdgesCanny` from the worker: thresholds from sensitivity,
gradients, non-maximum suppression, hysteresis. -/
noncomputable def detectEdgesCanny (gray : List ℝ) (width height : ℕ)
    (sensitivity : ℝ) : List ℝ :=
  hysteresisThreshold
    (nonMaxSuppression (gradientMagnitudes gray width height)
      (gradientDirections gray width height) width height)
    width height
    (max 5 (50 - sensitivity * 0.4)) (max 20 (100 - sensitivity * 0.7))

/-- `detectEdgesSobel` from the worker: magnitudes, normalization by the
running maximum (skipped when it is 0), then the low-pass threshold
`((100 - sensitivity)/100) * 0.3` zeroing smaller entries. -/
noncomputable def detectEdgesSobel (gray : List ℝ) (width height : ℕ)
    (sensitivity : ℝ) : List ℝ :=
  (if 0 < (gradientMagnitudes gray width height).foldl max 0 then
    (gradientMagnitudes gray width height).map
      (· / (gradientMagnitudes gray width height).foldl max 0)
  else gradientMagnitudes gray width height).map
    (fun v => if v < (100 - sensitivity) / 100 * 0.3 then 0 else v)

/-- `EdgeMethod` from `src/types/index.ts`. -/
inductive EdgeMethod where
  | sobel : EdgeMethod
  | canny : EdgeMethod
deriving DecidableEq, Repr

/-- `applyContrast` from the worker:
`clamp((v - 128) * contrast + 128, 0, 255)` (identity short-circuit at
`contrast = 1`). -/
noncomputable def applyContrast (gray : List ℝ) (contrast : ℝ) : List ℝ :=
  if contrast = 1 then gray
  else gray.map (fun v => max 0 (min 255 ((v - 128) * contrast + 128)))

/-- `generateGaussianKernel` from the worker: σ = radius/2, size
`2·ceil(radius)+1`, Gaussian weights normalized to sum 1. -/
noncomputable def generateGaussianKernel (radius : ℝ) : List ℝ :=
  ((List.range (⌈radius⌉ * 2 + 1).toNat).map (fun i =>
    Real.exp (-(((i : ℝ) - ((⌈radius⌉ * 2 + 1).toNat / 2 : ℕ)) ^ 2) /
      (2 * (radius / 2) ^ 2)))).map
    (fun v => v /
      ((List.range (⌈radius⌉ * 2 + 1).toNat).map (fun i =>
        Real.exp (-(((i : ℝ) - ((⌈radius⌉ * 2 + 1).toNat / 2 : ℕ)) ^ 2) /
          (2 * (radius / 2) ^ 2)))).sum)

/-- `convolve1DHorizontal` from the worker (clamp-to-edge sampling). -/
noncomputable def convolve1DHorizontal (data : List ℝ) (width height : ℕ)
    (kernel : List ℝ) : List ℝ :=
  (List.range (width * height)).map (fun (i : ℕ) =>
    ((List.range kernel.length).map (fun (k : ℕ) =>
      data.getD
        (i / width * width +
          (min (max ((i % width : ℤ) + k - (kernel.length / 2 : ℕ)) 0)
            ((width : ℤ) - 1)).toNat) 0 * kernel.getD k 0)).sum)

/-- `convolve1DVertical` from the worker (clamp-to-edge sampling). -/
noncomputable def convolve1DVertical (data : List ℝ) (width height : ℕ)
    (kernel : List ℝ) : List ℝ :=
  (List.range (width * height)).map (fun (i : ℕ) =>
    ((List.range kernel.length).map (fun (k : ℕ) =>
      data.getD
        ((min (max ((i / width : ℤ) + k - (kernel.length / 2 : ℕ)) 0)
          ((height : ℤ) - 1)).toNat * width + i % width) 0 * kernel.getD k 0)).sum)

/-- `applyGaussianBlur` from the worker: separable 1-D passes; identity
for `radius ≤ 0`. -/
noncomputable def applyGaussianBlur (gray : List ℝ) (width height : ℕ)
    (radius : ℝ) : List ℝ :=
  if radius ≤ 0 then gray
  else convolve1DVertical
    (convolve1DHorizontal gray width height (generateGaussianKernel radius))
    width height (generateGaussianKernel radius)

/-- `detectEdges` from the worker: grayscale, optional pre-blur, optional
contrast, then the selected edge detector. -/
noncomputable def detectEdges (data : List ℕ) (width height : ℕ)
    (method : EdgeMethod) (sensitivity preBlur contrast : ℝ) : List ℝ :=
  if method = EdgeMethod.canny then
    detectEdgesCanny
      (if contrast = 1 then
        (if 0 < preBlur then
          applyGaussianBlur (toGrayscale data width height) width height preBlur
        else toGrayscale data width height)
      else applyContrast
        (if 0 < preBlur then
          applyGaussianBlur (toGrayscale data width height) width height preBlur
        else toGrayscale data width height) contrast)
      width height sensitivity
  else
    detectEdgesSobel
      (if contrast = 1 then
        (if 0 < preBlur then
          applyGaussianBlur (toGrayscale data width height) width height preBlur
        else toGrayscale data width height)
      else applyContrast
        (if 0 < preBlur then
          applyGaussianBlur (toGrayscale data width height) width height preBlur
        else toGrayscale data width height) contrast)
      width height sensitivity

theorem foldl_max_init_le (l : List ℝ) (a : ℝ) : a ≤ l.foldl max a := by
  induction l generalizing a with
  | nil => exact le_refl a
  | cons x l ih => exact le_trans (le_max_left a x) (ih (max a x))

theorem mem_le_foldl_max (l : List ℝ) (a : ℝ) : ∀ x ∈ l, x ≤ l.foldl max a := by
  induction l generalizing a with
  | nil =>
    intro x hx
    exact absurd hx (List.not_mem_nil x)
  | cons y l ih =>
    intro x hx
    rcases List.mem_cons.mp hx with rfl | hx
    · exact le_trans (le_max_right a x) (foldl_max_init_le l (max a x))
    · exact ih (max a y) x hx

theorem gradientMagnitudes_length (gray : List ℝ) (width height : ℕ) :
    (gradientMagnitudes gray width height).length = width * height := by
  unfold gradientMagnitudes
  rw [List.length_map, List.length_range]

theorem gradientMagnitudes_nonneg (gray : List ℝ) (width height : ℕ) :
    ∀ m ∈ gradientMagnitudes gray width height, 0 ≤ m := by
  intro m hm
  obtain ⟨i, _, hi⟩ := List.mem_map.mp hm
  rw [← hi]
  exact Real.sqrt_nonneg _

theorem detectEdgesSobel_bounds (gray : List ℝ) (width height : ℕ)
    (sensitivity : ℝ) :
    (detectEdgesSobel gray width height sensitivity).length = width * height ∧
    ∀ v ∈ detectEdgesSobel gray width height sensitivity, 0 ≤ v ∧ v ≤ 1 := by
  constructor
  · unfold detectEdgesSobel
    rw [List.length_map]
    split
    · rw [List.length_map, gradientMagnitudes_length]
    · exact gradientMagnitudes_length gray width height
  · intro v hv
    unfold detectEdgesSobel at hv
    obtain ⟨u, hu, huv⟩ := List.mem_map.mp hv
    have hub : 0 ≤ u ∧ u ≤ 1 := by
      split at hu
      · next hpos =>
        obtain ⟨m, hm, hmu⟩ := List.mem_map.mp hu
        have h0 := gradientMagnitudes_nonneg gray width height m hm
        have h1 := mem_le_foldl_max (gradientMagnitudes gray width height) 0 m hm
        rw [← hmu]
        exact ⟨div_nonneg h0 (le_of_lt hpos), (div_le_one hpos).mpr h1⟩
      · next hpos =>
        have hzero : (gradientMagnitudes gray width height).foldl max 0 = 0 :=
          le_antisymm (le_of_not_lt hpos)
            (foldl_max_init_le (gradientMagnitudes gray width height) 0)
        have h0 := gradientMagnitudes_nonneg gray width height u hu
        have h1 := mem_le_foldl_max (gradientMagnitudes gray width height) 0 u hu
        rw [hzero] at h1
        constructor
        · exact h0
        · linarith
    rw [← huv]
    split
    · norm_num
    · exact hub

theorem hysteresisThreshold_bounds (edges : List ℝ) (width height : ℕ)
    (low high : ℝ) :
    (hysteresisThreshold edges width height low high).length = edges.length ∧
    ∀ v ∈ hysteresisThreshold edges width height low high, v = 0 ∨ v = 1 := by
  constructor
  · unfold hysteresisThreshold
    rw [List.length_map, hystLoop_length]
    unfold hystMark
    rw [List.length_map]
  · intro v hv
    unfold hysteresisThreshold at hv
    obtain ⟨u, _, huv⟩ := List.mem_map.mp hv
    rw [← huv]
    split
    · exact Or.inr rfl
    · exact Or.inl rfl

theorem length_preprocessed (data : List ℕ) (width height : ℕ)
    (preBlur contrast : ℝ) :
    (if contrast = 1 then
      (if 0 < preBlur then
        applyGaussianBlur (toGrayscale data width height) width height preBlur
      else toGrayscale data width height)
    else applyContrast
      (if 0 < preBlur then
        applyGaussianBlur (toGrayscale data width height) width height preBlur
      else toGrayscale data width height) contrast).length = width * height := by
  have hgray : (toGrayscale data width height).length = width * height := by
    unfold toGrayscale
    simp
  have hblur : ∀ l : List ℝ,
      (applyGaussianBlur l width height preBlur).length = l.length ∨
      (applyGaussianBlur l width height preBlur).length = width * height := by
    intro l
    unfold applyGaussianBlur
    split
    · exact Or.inl rfl
    · right
      unfold convolve1DVertical
      rw [List.length_map, List.length_range]
  have hpre : (if 0 < preBlur then
      applyGaussianBlur (toGrayscale data width height) width height preBlur
    else toGrayscale data width height).length = width * height := by
    split
    · rcases hblur (toGrayscale data width height) with h | h
      · rw [h, hgray]
      · exact h
    · exact hgray
  split
  · exact hpre
  · unfold applyContrast
    split
    · exact hpre
    · rw [List.length_map]
      exact hpre

/-- C5: for every input, both edge detectors return a map of length
`width · height` with all entries in `[0, 1]`; the Canny output is
binary (every entry is 0 or 1). -/
theorem detectEdges_spec (data : List ℕ) (width height : ℕ)
    (method : EdgeMethod) (sensitivity preBlur contrast : ℝ) :
    (detectEdges data width height method sensitivity preBlur contrast).length =
      width * height ∧
    (∀ v ∈ detectEdges data width height method sensitivity preBlur contrast,
      0 ≤ v ∧ v ≤ 1) ∧
    (method = EdgeMethod.canny →
      ∀ v ∈ detectEdges data width height method sensitivity preBlur contrast,
        v = 0 ∨ v = 1) := by
  unfold detectEdges
  cases method with
  | sobel =>
    rw [if_neg (by decide : ¬ EdgeMethod.sobel = EdgeMethod.canny)]
    refine ⟨(detectEdgesSobel_bounds _ width height sensitivity).1, ?_, ?_⟩
    · exact (detectEdgesSobel_bounds _ width height sensitivity).2
    · intro h
      exact absurd h (by decide)
  | canny =>
    rw [if_pos rfl]
    have hc : ∀ gray : List ℝ,
        (detectEdgesCanny gray width height sensitivity).length =
          (nonMaxSuppression (gradientMagnitudes gray width height)
            (gradientDirections gray width height) width height).length ∧
        ∀ v ∈ detectEdgesCanny gray width height sensitivity, v = 0 ∨ v = 1 := by
      intro gray
      unfold detectEdgesCanny
      exact ⟨(hysteresisThreshold_bounds _ width height _ _).1,
        (hysteresisThreshold_bounds _ width height _ _).2⟩
    refine ⟨?_, ?_, fun _ => (hc _).2⟩
    · rw [(hc _).1]
      unfold nonMaxSuppression
      rw [List.length_map, List.length_range]
    · intro v hv
      rcases (hc _).2 v hv with rfl | rfl
      · norm_num
      · norm_num

/-- Iterating the sweep from any state reaches, within `weakCount` many
sweeps, a state that a further sweep leaves unchanged; `hystLoop`
computes exactly that iterate. -/
theorem hystLoop_iterate (width height : ℕ) (st : List ℝ) :
    ∃ n ≤ weakCount st,
      hystLoop width height st =
        (fun s => (hystSweep width height s).1)^[n] st ∧
      (hystSweep width height
        ((fun s => (hystSweep width height s).1)^[n] st)).2 = false := by
  generalize hn : weakCount st = N
  induction N using Nat.strong_induction_on generalizing st with
  | _ N ih =>
    rw [hystLoop]
    split
    · next hch =>
      obtain ⟨n, hle, heq, hfix⟩ := ih (weakCount (hystSweep width height st).1)
        (hn ▸ hystSweep_changed_lt width height st hch) _ rfl
      refine ⟨n + 1, ?_, ?_, ?_⟩
      · have := hystSweep_changed_lt width height st hch
        omega
      · rw [Function.iterate_succ_apply]
        exact heq
      · rw [Function.iterate_succ_apply]
        exact hfix
    · next hch =>
      refine ⟨0, Nat.zero_le _, rfl, ?_⟩
      rw [Function.iterate_zero_apply]
      exact Bool.not_eq_true _ ▸ eq_false_of_ne_true hch

/-- C10: the weak-edge promotion loop terminates on every input: a sweep
that promotes nothing is final, a sweep that promotes strictly decreases
the number of WEAK pixels, so a fixed point is reached within
`weakCount ≤ pixel count` sweeps, and `hysteresisThreshold` is the
binarization of that fixed point (hence a total function). -/
theorem hysteresisThreshold_total (edges : List ℝ) (width height : ℕ)
    (low high : ℝ) :
    ∃ n, n ≤ weakCount (hystMark edges low high) ∧
      weakCount (hystMark edges low high) ≤ edges.length ∧
      hysteresisThreshold edges width height low high =
        ((fun s => (hystSweep width height s).1)^[n]
          (hystMark edges low high)).map (fun v => if v = 255 then (1 : ℝ) else 0) ∧
      (hystSweep width height
        ((fun s => (hystSweep width height s).1)^[n]
          (hystMark edges low high))).2 = false := by
  obtain ⟨n, hle, heq, hfix⟩ := hystLoop_iterate width height (hystMark edges low high)
  refine ⟨n, hle, ?_, ?_, hfix⟩
  · unfold weakCount
    refine le_trans (List.countP_le_length _) ?_
    unfold hystMark
    rw [List.length_map]
  · unfold hysteresisThreshold
    rw [heq]

theorem detectEdges_spec_witness :
    (EdgeMethod.canny = EdgeMethod.canny) ∧
    (∀ v ∈ detectEdges [0, 0, 0, 255] 1 1 EdgeMethod.canny 50 0 1,
      v = 0 ∨ v = 1) :=
  ⟨rfl, (detectEdges_spec [0, 0, 0, 255] 1 1 EdgeMethod.canny 50 0 1).2.2 rfl⟩

/-! ## Component G: light-source positions (C7)

Two distinct source functions are both named `getLightSourcePosition`:
the one in `src/lib/lighting/transmission.ts` places the light at
distance `2·max(W,H)` from the image center, the one in
`src/lib/lighting/rays.ts` at distance `max(W,H)` (and at the center for
the `center` preset).  Both are modelled over `ℝ` with real
trigonometry. -/

/-- `getLightSourcePosition` from `src/lib/lighting/transmission.ts`:
center + `2·max(W,H)` along the angle (degrees → radians). -/
noncomputable def getLightSourcePositionT (angle : ℝ) (width height : ℝ) : ℝ × ℝ :=
  (width / 2 + Real.cos (angle * Real.pi / 180) * (max width height * 2),
   height / 2 + Real.sin (angle * Real.pi / 180) * (max width height * 2))

/-- `getLightSourcePosition` from `src/lib/lighting/rays.ts`: the image
center for the `center` preset, else center + `max(W,H)` (not `2·max`)
along the angle. -/
noncomputable def getLightSourcePositionRays (angle : ℝ) (width height : ℝ)
    (isCenter : Bool) : ℝ × ℝ :=
  if isCenter then (width / 2, height / 2)
  else
    (width / 2 + Real.cos (angle * Real.pi / 180) * max width height,
     height / 2 + Real.sin (angle * Real.pi / 180) * max width height)

/-- Euclidean distance of a pair from the image center. -/
noncomputable def distToCenter (p : ℝ × ℝ) (width height : ℝ) : ℝ :=
  Real.sqrt ((p.1 - width / 2) ^ 2 + (p.2 - height / 2) ^ 2)

theorem dist_of_polar (c s d cx cy : ℝ) (hcs : c ^ 2 + s ^ 2 = 1) (hd : 0 ≤ d) :
    distToCenter (cx + c * d, cy + s * d) (2 * cx) (2 * cy) = d := by
  unfold distToCenter
  have h1 : (cx + c * d - 2 * cx / 2) ^ 2 + (cy + s * d - 2 * cy / 2) ^ 2 =
      d ^ 2 * (c ^ 2 + s ^ 2) := by ring
  rw [h1, hcs, mul_one, Real.sqrt_sq hd]

/-- C7 (amended): the transmission-shading light source lies at distance
`2·max(W,H)` from the image center along the effective angle, but the
ray-generation light source lies at distance `max(W,H)` (half as far);
for the `center` preset the ray generator places it at the image
center. -/
theorem lightSourcePosition_distances (angle width height : ℝ)
    (hw : 0 < width) (hh : 0 < height) :
    distToCenter (getLightSourcePositionT angle width height) width height =
      2 * max width height ∧
    distToCenter (getLightSourcePositionRays angle width height false)
        width height = max width height ∧
    getLightSourcePositionRays angle width height true =
      (width / 2, height / 2) := by
  have hmax : (0 : ℝ) ≤ max width height := le_max_of_le_left (le_of_lt hw)
  have hcs : Real.cos (angle * Real.pi / 180) ^ 2 +
      Real.sin (angle * Real.pi / 180) ^ 2 = 1 := by
    rw [add_comm]
    exact Real.sin_sq_add_cos_sq _
  refine ⟨?_, ?_, rfl⟩
  · unfold getLightSourcePositionT
    have := dist_of_polar (Real.cos (angle * Real.pi / 180))
      (Real.sin (angle * Real.pi / 180)) (max width height * 2)
      (width / 2) (height / 2) hcs (by linarith)
    rw [show 2 * (width / 2) = width by ring, show 2 * (height / 2) = height by ring]
      at this
    rw [this]
    ring
  · unfold getLightSourcePositionRays
    rw [if_neg (by simp)]
    have := dist_of_polar (Real.cos (angle * Real.pi / 180))
      (Real.sin (angle * Real.pi / 180)) (max width height)
      (width / 2) (height / 2) hcs hmax
    rw [show 2 * (width / 2) = width by ring, show 2 * (height / 2) = height by ring]
      at this
    rw [this]

theorem lightSourcePosition_distances_witness :
    (0 : ℝ) < 1 ∧
    (distToCenter (getLightSourcePositionT 0 1 1) 1 1 = 2 * max 1 1 ∧
      distToCenter (getLightSourcePositionRays 0 1 1 false) 1 1 = max 1 1 ∧
      getLightSourcePositionRays 0 1 1 true = (1 / 2, 1 / 2)) :=
  ⟨one_pos, lightSourcePosition_distances 0 1 1 one_pos one_pos⟩

/-- C7, counterexample: at `W = H = 1` and angle 0 the ray-generation
light source sits at `(3/2, 1/2)`, at distance `1 = max(W,H)` from the
center, not at the claimed distance `2·max(W,H) = 2`. -/
theorem lightSourcePositionRays_counterexample :
    distToCenter (getLightSourcePositionRays 0 1 1 false) 1 1 = 1 ∧
    (1 : ℝ) ≠ 2 * max 1 1 := by
  constructor
  · unfold getLightSourcePositionRays distToCenter
    rw [if_neg (by simp)]
    have h0 : (0 : ℝ) * Real.pi / 180 = 0 := by ring
    rw [h0, Real.cos_zero, Real.sin_zero]
    rw [show ((1:ℝ) / 2 + 1 * max 1 1 - 1 / 2) ^ 2 + (1 / 2 + 0 * max 1 1 - 1 / 2) ^ 2
        = 1 by norm_num]
    exact Real.sqrt_one
  · norm_num

/-! ## Component C: seed points (`src/lib/voronoi/points.ts`)

Modelled over `ℝ` (the Poisson sampler computes with `Math.sqrt`,
`Math.PI`, `Math.cos`, `Math.sin`).  `Math.random()` is an explicit
stream `s : ℕ → ℝ` with a counter that advances by one per call, in the
exact order the source draws. -/

/-- `generateUniformPoints`: `count` points `(rand·W, rand·H)`, two draws
per point. -/
noncomputable def generateUniformPoints (s : ℕ → ℝ) (c : ℕ)
    (width height : ℝ) (count : ℕ) : List (ℝ × ℝ) :=
  (List.range count).map (fun (i : ℕ) =>
    (s (c + 2 * i) * width, s (c + 2 * i + 1) * height))

/-- The per-index weight of `generateEdgeWeightedPoints`:
`1 - edgeInfluence + edgeInfluence * (edge + 0.1)`. -/
noncomputable def ewWeight (edgeInfluence e : ℝ) : ℝ :=
  1 - edgeInfluence + edgeInfluence * (e + 0.1)

/-- The cumulative-weight array `weights` of `generateEdgeWeightedPoints`
(`weights[i]` is the running total after index `i`). -/
noncomputable def ewWeights (edges : List ℝ) (edgeInfluence : ℝ) : List ℝ :=
  (List.range edges.length).map (fun (i : ℕ) =>
    ((edges.take (i + 1)).map (ewWeight edgeInfluence)).sum)

/-- The binary search of `generateEdgeWeightedPoints`
(`while (lo < hi) { mid = (lo+hi)>>1; … }`). -/
noncomputable def ewSearch (weights : List ℝ) (target : ℝ) (lo hi : ℕ) : ℕ :=
  if lo < hi then
    if weights.getD ((lo + hi) / 2) 0 < target then
      ewSearch weights target ((lo + hi) / 2 + 1) hi
    else
      ewSearch weights target lo ((lo + hi) / 2)
  else lo
termination_by hi - lo
decreasing_by
  · omega
  · omega

/-- `generateEdgeWeightedPoints`: `count` draws of a weighted index by
binary search over the prefix sums, converted to `(x, y)` and jittered by
`rand - 0.5` per axis (three draws per point; no clamping is applied).
The `height` parameter is unused by the source body as well. -/
noncomputable def generateEdgeWeightedPoints (s : ℕ → ℝ) (c : ℕ)
    (edges : List ℝ) (width height : ℕ) (count : ℕ) (edgeInfluence : ℝ) :
    List (ℝ × ℝ) :=
  (List.range count).map (fun (i : ℕ) =>
    ((((ewSearch (ewWeights edges edgeInfluence)
        (s (c + 3 * i) * (edges.map (ewWeight edgeInfluence)).sum)
        0 (edges.length - 1)) % width : ℕ) : ℝ) + s (c + 3 * i + 1) - 0.5,
     (((ewSearch (ewWeights edges edgeInfluence)
        (s (c + 3 * i) * (edges.map (ewWeight edgeInfluence)).sum)
        0 (edges.length - 1)) / width : ℕ) : ℝ) + s (c + 3 * i + 2) - 0.5))

/-- `minDist = Math.sqrt(width*height/count/Math.PI) * 0.8`. -/
noncomputable def pMinDist (width height : ℝ) (count : ℕ) : ℝ :=
  Real.sqrt (width * height / count / Real.pi) * 0.8

/-- `cellSize = minDist / Math.SQRT2`. -/
noncomputable def pCellSize (width height : ℝ) (count : ℕ) : ℝ :=
  pMinDist width height count / Real.sqrt 2

/-- `gridWidth = Math.ceil(width / cellSize)`. -/
noncomputable def pGridWidth (width height : ℝ) (count : ℕ) : ℤ :=
  ⌈width / pCellSize width height count⌉

/-- `gridHeight = Math.ceil(height / cellSize)`. -/
noncomputable def pGridHeight (width height : ℝ) (count : ℕ) : ℤ :=
  ⌈height / pCellSize width height count⌉

/-- `gridIndex(x, y) = floor(y/cellSize)*gridWidth + floor(x/cellSize)`.
The background grid is modelled as a function on linear indices; the
source's flat array writes/reads exactly these indices. -/
noncomputable def pGridIndex (width height : ℝ) (count : ℕ) (p : ℝ × ℝ) : ℤ :=
  ⌊p.2 / pCellSize width height count⌋ * pGridWidth width height count +
    ⌊p.1 / pCellSize width height count⌋

/-- `Math.hypot` of a coordinate difference. -/
noncomputable def jhypot (a b : ℝ) : ℝ := Real.sqrt (a ^ 2 + b ^ 2)

def offsets5 : List ℤ := [-2, -1, 0, 1, 2]

/-- `isTooClose`: scan the ±2 neighbourhood of the candidate's grid cell;
a registered point at distance `< minDist` rejects the candidate. -/
noncomputable def isTooClose (width height : ℝ) (count : ℕ)
    (grid : ℤ → Option (ℝ × ℝ)) (p : ℝ × ℝ) : Bool :=
  offsets5.any (fun dy => offsets5.any (fun dx =>
    decide (0 ≤ ⌊p.1 / pCellSize width height count⌋ + dx) &&
    decide (⌊p.1 / pCellSize width height count⌋ + dx < pGridWidth width height count) &&
    decide (0 ≤ ⌊p.2 / pCellSize width height count⌋ + dy) &&
    decide (⌊p.2 / pCellSize width height count⌋ + dy < pGridHeight width height count) &&
    (match grid ((⌊p.2 / pCellSize width height count⌋ + dy) *
        pGridWidth width height count +
        (⌊p.1 / pCellSize width height count⌋ + dx)) with
     | none => false
     | some q => decide (jhypot (p.1 - q.1) (p.2 - q.2) < pMinDist width height count))))

/-- The `k = 30` candidate attempts around an active point: each attempt
draws an angle and a distance in `[minDist, 2·minDist)`; the first
candidate inside bounds and not too close is returned together with the
advanced draw counter. -/
noncomputable def tryCandidates (s : ℕ → ℝ) (width height : ℝ) (count : ℕ)
    (grid : ℤ → Option (ℝ × ℝ)) (point : ℝ × ℝ) :
    ℕ → ℕ → Option (ℝ × ℝ) × ℕ
  | 0, ctr => (none, ctr)
  | k + 1, ctr =>
    if 0 ≤ point.1 + Real.cos (s ctr * Real.pi * 2) *
          (pMinDist width height count + s (ctr + 1) * pMinDist width height count) ∧
        point.1 + Real.cos (s ctr * Real.pi * 2) *
          (pMinDist width height count + s (ctr + 1) * pMinDist width height count) < width ∧
        0 ≤ point.2 + Real.sin (s ctr * Real.pi * 2) *
          (pMinDist width height count + s (ctr + 1) * pMinDist width height count) ∧
        point.2 + Real.sin (s ctr * Real.pi * 2) *
          (pMinDist width height count + s (ctr + 1) * pMinDist width height count) < height ∧
        isTooClose width height count grid
          (point.1 + Real.cos (s ctr * Real.pi * 2) *
            (pMinDist width height count + s (ctr + 1) * pMinDist width height count),
           point.2 + Real.sin (s ctr * Real.pi * 2) *
            (pMinDist width height count + s (ctr + 1) * pMinDist width height count)) =
          false then
      (some (point.1 + Real.cos (s ctr * Real.pi * 2) *
          (pMinDist width height count + s (ctr + 1) * pMinDist width height count),
        point.2 + Real.sin (s ctr * Real.pi * 2) *
          (pMinDist width height count + s (ctr + 1) * pMinDist width height count)),
       ctr + 2)
    else tryCandidates s width height count grid point k (ctr + 2)

/-- The mutable state of the Bridson loop. -/
structure PoissonState where
  points : List (ℝ × ℝ)
  active : List (ℝ × ℝ)
  grid : ℤ → Option (ℝ × ℝ)
  ctr : ℕ

/-- The Bridson `while (activeList.length > 0 && points.length < count*2)`
loop.  The random active index is `⌊rand · active.length⌋`; the `min`
with `active.length - 1` is a no-op for the real `Math.random` range
`[0, 1)` and only makes the recursion total on arbitrary streams. -/
noncomputable def poissonLoop (s : ℕ → ℝ) (width height : ℝ) (count : ℕ)
    (st : PoissonState) : PoissonState :=
  if h : st.active.length ≠ 0 ∧ st.points.length < count * 2 then
    match htry : tryCandidates s width height count st.grid
        (st.active.getD (min (⌊s st.ctr * st.active.length⌋.toNat)
          (st.active.length - 1)) (0, 0)) 30 (st.ctr + 1) with
    | (some np, ctr2) =>
      poissonLoop s width height count
        { points := st.points ++ [np],
          active := st.active ++ [np],
          grid := Function.update st.grid (pGridIndex width height count np) (some np),
          ctr := ctr2 }
    | (none, ctr2) =>
      poissonLoop s width height count
        { points := st.points,
          active := st.active.eraseIdx (min (⌊s st.ctr * st.active.length⌋.toNat)
            (st.active.length - 1)),
          grid := st.grid,
          ctr := ctr2 }
  else st
termination_by 2 * (count * 2 - st.points.length) + st.active.length
decreasing_by
  · simp only [List.length_append, List.length_singleton]
    omega
  · have : st.active.length ≠ 0 := h.1
    rw [List.length_eraseIdx_of_lt (by omega)]
    omega

/-- The state after the first (always placed) point and the Bridson
loop. -/
noncomputable def poissonCoreState (s : ℕ → ℝ) (c : ℕ) (width height : ℝ)
    (count : ℕ) : PoissonState :=
  poissonLoop s width height count
    { points := [(s c * width, s (c + 1) * height)],
      active := [(s c * width, s (c + 1) * height)],
      grid := Function.update (fun _ => none)
        (pGridIndex width height count (s c * width, s (c + 1) * height))
        (some (s c * width, s (c + 1) * height)),
      ctr := c + 2 }

/-- The `while (points.length < count)` uniform top-up. -/
noncomputable def poissonTopUp (s : ℕ → ℝ) (width height : ℝ) (count : ℕ)
    (pts : List (ℝ × ℝ)) (ctr : ℕ) : List (ℝ × ℝ) :=
  if pts.length < count then
    poissonTopUp s width height count
      (pts ++ [(s ctr * width, s (ctr + 1) * height)]) (ctr + 2)
  else pts
termination_by count - pts.length
decreasing_by
  simp only [List.length_append, List.length_singleton]
  omega

/-- `generatePoissonPoints`: first point, Bridson loop, uniform top-up,
`slice(0, count)`. -/
noncomputable def generatePoissonPoints (s : ℕ → ℝ) (c : ℕ)
    (width height : ℝ) (count : ℕ) : List (ℝ × ℝ) :=
  (poissonTopUp s width height count (poissonCoreState s c width height count).points
    (poissonCoreState s c width height count).ctr).take count

/-- "Strictly within the rectangle `[0,W) × [0,H)`". -/
def pInBounds (width height : ℝ) (p : ℝ × ℝ) : Prop :=
  0 ≤ p.1 ∧ p.1 < width ∧ 0 ≤ p.2 ∧ p.2 < height

theorem rand_mul_bounds (u v : ℝ) (hu0 : 0 ≤ u) (hu1 : u < 1) (hv : 0 < v) :
    0 ≤ u * v ∧ u * v < v :=
  ⟨mul_nonneg hu0 (le_of_lt hv), by nlinarith⟩

theorem generateUniformPoints_spec (s : ℕ → ℝ) (c : ℕ) (width height : ℝ)
    (count : ℕ) (hdraws : ∀ n, 0 ≤ s n ∧ s n < 1) (hw : 0 < width)
    (hh : 0 < height) :
    (generateUniformPoints s c width height count).length = count ∧
    ∀ p ∈ generateUniformPoints s c width height count, pInBounds width height p := by
  constructor
  · unfold generateUniformPoints
    rw [List.length_map, List.length_range]
  · intro p hp
    obtain ⟨i, _, hi⟩ := List.mem_map.mp hp
    obtain ⟨hx0, hx1⟩ := rand_mul_bounds _ width (hdraws (c + 2 * i)).1
      (hdraws (c + 2 * i)).2 hw
    obtain ⟨hy0, hy1⟩ := rand_mul_bounds _ height (hdraws (c + 2 * i + 1)).1
      (hdraws (c + 2 * i + 1)).2 hh
    rw [← hi]
    exact ⟨hx0, hx1, hy0, hy1⟩

theorem tryCandidates_some_inBounds (s : ℕ → ℝ) (width height : ℝ) (count : ℕ)
    (grid : ℤ → Option (ℝ × ℝ)) (point : ℝ × ℝ) :
    ∀ (k ctr : ℕ) (np : ℝ × ℝ) (c2 : ℕ),
      tryCandidates s width height count grid point k ctr = (some np, c2) →
      pInBounds width height np := by
  intro k
  induction k with
  | zero =>
    intro ctr np c2 heq
    exact absurd heq (by simp [tryCandidates])
  | succ k ih =>
    intro ctr np c2 heq
    rw [tryCandidates] at heq
    split at heq
    · next hcond =>
      obtain ⟨h1, h2, h3, h4, _⟩ := hcond
      cases heq
      exact ⟨h1, h2, h3, h4⟩
    · exact ih _ np c2 heq

theorem poissonLoop_points_inBounds (s : ℕ → ℝ) (width height : ℝ) (count : ℕ)
    (st : PoissonState) (hst : ∀ p ∈ st.points, pInBounds width height p) :
    ∀ p ∈ (poissonLoop s width height count st).points, pInBounds width height p := by
  induction st using poissonLoop.induct s width height count with
  | case1 x h np ctr2 htry ih =>
    rw [poissonLoop, dif_pos h, htry]
    apply ih
    intro p hp
    rcases List.mem_append.mp hp with hp | hp
    · exact hst p hp
    · rw [List.mem_singleton.mp hp]
      exact tryCandidates_some_inBounds s width height count x.grid _ _ _ np _ htry
  | case2 x h ctr2 htry ih =>
    rw [poissonLoop, dif_pos h, htry]
    exact ih hst
  | case3 x h =>
    rw [poissonLoop, dif_neg h]
    exact hst

theorem poissonTopUp_length (s : ℕ → ℝ) (width height : ℝ) (count : ℕ)
    (pts : List (ℝ × ℝ)) (ctr : ℕ) :
    (poissonTopUp s width height count pts ctr).length = max pts.length count := by
  induction pts, ctr using poissonTopUp.induct s width height count with
  | case1 pts ctr hlt ih =>
    rw [poissonTopUp, if_pos hlt, ih]
    simp only [List.length_append, List.length_singleton]
    omega
  | case2 pts ctr hge =>
    rw [poissonTopUp, if_neg hge]
    omega

theorem poissonTopUp_mem (s : ℕ → ℝ) (width height : ℝ) (count : ℕ)
    (hdraws : ∀ n, 0 ≤ s n ∧ s n < 1) (hw : 0 < width) (hh : 0 < height)
    (pts : List (ℝ × ℝ)) (ctr : ℕ)
    (hpts : ∀ p ∈ pts, pInBounds width height p) :
    ∀ p ∈ poissonTopUp s width height count pts ctr, pInBounds width height p := by
  induction pts, ctr using poissonTopUp.induct s width height count with
  | case1 pts ctr hlt ih =>
    rw [poissonTopUp, if_pos hlt]
    apply ih
    intro p hp
    rcases List.mem_append.mp hp with hp | hp
    · exact hpts p hp
    · rw [List.mem_singleton.mp hp]
      obtain ⟨hx0, hx1⟩ := rand_mul_bounds _ width (hdraws ctr).1 (hdraws ctr).2 hw
      obtain ⟨hy0, hy1⟩ := rand_mul_bounds _ height (hdraws (ctr + 1)).1
        (hdraws (ctr + 1)).2 hh
      exact ⟨hx0, hx1, hy0, hy1⟩
  | case2 pts ctr hge =>
    rw [poissonTopUp, if_neg hge]
    exact hpts

theorem poissonCore_points_inBounds (s : ℕ → ℝ) (c : ℕ) (width height : ℝ)
    (count : ℕ) (hdraws : ∀ n, 0 ≤ s n ∧ s n < 1) (hw : 0 < width)
    (hh : 0 < height) :
    ∀ p ∈ (poissonCoreState s c width height count).points,
      pInBounds width height p := by
  apply poissonLoop_points_inBounds
  intro p hp
  rw [List.mem_singleton.mp hp]
  obtain ⟨hx0, hx1⟩ := rand_mul_bounds _ width (hdraws c).1 (hdraws c).2 hw
  obtain ⟨hy0, hy1⟩ := rand_mul_bounds _ height (hdraws (c + 1)).1 (hdraws (c + 1)).2 hh
  exact ⟨hx0, hx1, hy0, hy1⟩

theorem generatePoissonPoints_spec (s : ℕ → ℝ) (c : ℕ) (width height : ℝ)
    (count : ℕ) (hdraws : ∀ n, 0 ≤ s n ∧ s n < 1) (hw : 0 < width)
    (hh : 0 < height) :
    (generatePoissonPoints s c width height count).length = count ∧
    ∀ p ∈ generatePoissonPoints s c width height count, pInBounds width height p := by
  constructor
  · unfold generatePoissonPoints
    rw [List.length_take, poissonTopUp_length]
    omega
  · intro p hp
    unfold generatePoissonPoints at hp
    have hp2 : p ∈ poissonTopUp s width height count
        (poissonCoreState s c width height count).points
        (poissonCoreState s c width height count).ctr :=
      List.mem_of_mem_take hp
    exact poissonTopUp_mem s width height count hdraws hw hh _ _
      (poissonCore_points_inBounds s c width height count hdraws hw hh) p hp2

theorem ewSearch_le (weights : List ℝ) (target : ℝ) :
    ∀ lo hi : ℕ, lo ≤ hi → ewSearch weights target lo hi ≤ hi := by
  intro lo hi
  induction lo, hi using ewSearch.induct weights target with
  | case1 lo hi hlt hcmp ih =>
    intro _
    rw [ewSearch, if_pos hlt, if_pos hcmp]
    exact ih (by omega)
  | case2 lo hi hlt hcmp ih =>
    intro _
    rw [ewSearch, if_pos hlt, if_neg hcmp]
    exact le_trans (ih (by omega)) (by omega)
  | case3 lo hi hge =>
    intro h
    rw [ewSearch, if_neg hge]
    exact h

theorem generateEdgeWeightedPoints_spec (s : ℕ → ℝ) (c : ℕ) (edges : List ℝ)
    (pixW pixH : ℕ) (count : ℕ) (edgeInfluence : ℝ)
    (hdraws : ∀ n, 0 ≤ s n ∧ s n < 1) (hpixW : 1 ≤ pixW) (hpixH : 1 ≤ pixH)
    (hedges : edges.length ≤ pixW * pixH) :
    (generateEdgeWeightedPoints s c edges pixW pixH count edgeInfluence).length =
      count ∧
    ∀ p ∈ generateEdgeWeightedPoints s c edges pixW pixH count edgeInfluence,
      -(1/2) ≤ p.1 ∧ p.1 < (pixW : ℝ) - 1/2 ∧
      -(1/2) ≤ p.2 ∧ p.2 < (pixH : ℝ) - 1/2 := by
  constructor
  · unfold generateEdgeWeightedPoints
    rw [List.length_map, List.length_range]
  · intro p hp
    obtain ⟨i, _, hi⟩ := List.mem_map.mp hp
    have hlo : ewSearch (ewWeights edges edgeInfluence)
        (s (c + 3 * i) * (edges.map (ewWeight edgeInfluence)).sum)
        0 (edges.length - 1) ≤ edges.length - 1 :=
      ewSearch_le _ _ 0 (edges.length - 1) (Nat.zero_le _)
    set lo := ewSearch (ewWeights edges edgeInfluence)
        (s (c + 3 * i) * (edges.map (ewWeight edgeInfluence)).sum)
        0 (edges.length - 1) with hlodef
    have hWH : 0 < pixW * pixH := Nat.mul_pos (by omega) (by omega)
    have hx0 : lo % pixW ≤ pixW - 1 := by
      have := Nat.mod_lt lo (show 0 < pixW by omega)
      omega
    have hy0 : lo / pixW ≤ pixH - 1 := by
      have hlt : lo < pixW * pixH := by omega
      rw [Nat.mul_comm] at hlt
      have hdiv := (Nat.div_lt_iff_lt_mul (show 0 < pixW by omega)).mpr hlt
      omega
    obtain ⟨hu0, hu1⟩ := hdraws (c + 3 * i + 1)
    obtain ⟨hv0, hv1⟩ := hdraws (c + 3 * i + 2)
    rw [← hi]
    refine ⟨?_, ?_, ?_, ?_⟩
    · have : (0 : ℝ) ≤ ((lo % pixW : ℕ) : ℝ) := Nat.cast_nonneg _
      simp only
      linarith
    · have : ((lo % pixW : ℕ) : ℝ) ≤ ((pixW : ℕ) : ℝ) - 1 := by
        have := hx0
        have hcast : ((lo % pixW : ℕ) : ℝ) ≤ ((pixW - 1 : ℕ) : ℝ) := Nat.cast_le.mpr hx0
        have : ((pixW - 1 : ℕ) : ℝ) = (pixW : ℝ) - 1 := by
          push_cast [hpixW]
          ring
        linarith
      simp only
      linarith
    · have : (0 : ℝ) ≤ ((lo / pixW : ℕ) : ℝ) := Nat.cast_nonneg _
      simp only
      linarith
    · have : ((lo / pixW : ℕ) : ℝ) ≤ ((pixH : ℕ) : ℝ) - 1 := by
        have hcast : ((lo / pixW : ℕ) : ℝ) ≤ ((pixH - 1 : ℕ) : ℝ) := Nat.cast_le.mpr hy0
        have : ((pixH - 1 : ℕ) : ℝ) = (pixH : ℝ) - 1 := by
          push_cast [hpixH]
          ring
        linarith
      simp only
      linarith

/-- "Exactly `n` points, all strictly within `[0,w) × [0,h)`". -/
def exactlyNInBounds (pts : List (ℝ × ℝ)) (n : ℕ) (w h : ℝ) : Prop :=
  pts.length = n ∧ ∀ p ∈ pts, pInBounds w h p

/-- The rectangle actually attained by the unclamped edge-weighted
jitter: `[-1/2, w - 1/2) × [-1/2, h - 1/2)`. -/
def ewInBounds (w h : ℝ) (p : ℝ × ℝ) : Prop :=
  -(1/2) ≤ p.1 ∧ p.1 < w - 1/2 ∧ -(1/2) ≤ p.2 ∧ p.2 < h - 1/2

/-- C3 (amended): for every width `W ≥ 1`, height `H ≥ 1` and requested
count `N`, each seed-generation strategy returns exactly `N` points; the
uniform and Poisson-disk points lie strictly within `[0,W) × [0,H)`, but
the edge-weighted points are jittered by `rand - 0.5` per axis with no
clamping, so they lie in `[-1/2, W-1/2) × [-1/2, H-1/2)` and can fall
outside `[0,W) × [0,H)`. -/
theorem seedGeneration_spec (s : ℕ → ℝ) (c : ℕ) (edges : List ℝ)
    (W H N : ℕ) (edgeInfluence : ℝ)
    (hdraws : ∀ n, 0 ≤ s n ∧ s n < 1)
    (hW : 1 ≤ W) (hH : 1 ≤ H) (hedges : edges.length ≤ W * H) :
    exactlyNInBounds (generateUniformPoints s c W H N) N W H ∧
    exactlyNInBounds (generatePoissonPoints s c W H N) N W H ∧
    (generateEdgeWeightedPoints s c edges W H N edgeInfluence).length = N ∧
    ∀ p ∈ generateEdgeWeightedPoints s c edges W H N edgeInfluence,
      ewInBounds W H p := by
  have hWR : (0 : ℝ) < W := by exact_mod_cast Nat.lt_of_lt_of_le Nat.zero_lt_one hW
  have hHR : (0 : ℝ) < H := by exact_mod_cast Nat.lt_of_lt_of_le Nat.zero_lt_one hH
  refine ⟨?_, ?_, ?_, ?_⟩
  · exact generateUniformPoints_spec s c W H N hdraws hWR hHR
  · exact generatePoissonPoints_spec s c W H N hdraws hWR hHR
  · exact (generateEdgeWeightedPoints_spec s c edges W H N edgeInfluence
      hdraws hW hH hedges).1
  · exact (generateEdgeWeightedPoints_spec s c edges W H N edgeInfluence
      hdraws hW hH hedges).2

/-- C3 counterexample: with a 1×1 image, a single edge value and the
all-zero draw stream, `generateEdgeWeightedPoints` returns the single
point `(-1/2, -1/2)`, which lies outside `[0,1) × [0,1)`. -/
theorem generateEdgeWeightedPoints_counterexample :
    generateEdgeWeightedPoints (fun _ => (0:ℝ)) 0 [0] 1 1 1 0 =
      [(-(1/2 : ℝ), -(1/2 : ℝ))] ∧
    ¬ pInBounds 1 1 (-(1/2 : ℝ), -(1/2 : ℝ)) := by
  constructor
  · unfold generateEdgeWeightedPoints
    rw [show List.range 1 = [0] from rfl]
    simp only [List.map_cons, List.map_nil]
    rw [show ([(0:ℝ)].length - 1) = 0 from rfl]
    rw [ewSearch]
    norm_num
  · simp [pInBounds]

/-- The constant draw stream `1/2` used by the C3 witness. -/
noncomputable def c3s : ℕ → ℝ := fun _ => 1/2

theorem seedGeneration_spec_witness :
    ((∀ n : ℕ, 0 ≤ c3s n ∧ c3s n < 1) ∧ 1 ≤ 1 ∧
      ([(0:ℝ)].length ≤ 1 * 1)) ∧
    (exactlyNInBounds (generateUniformPoints c3s 0 1 1 1) 1 1 1 ∧
      exactlyNInBounds (generatePoissonPoints c3s 0 1 1 1) 1 1 1 ∧
      (generateEdgeWeightedPoints c3s 0 [0] 1 1 1 0).length = 1 ∧
      ∀ p ∈ generateEdgeWeightedPoints c3s 0 [0] 1 1 1 0, ewInBounds 1 1 p) :=
  ⟨⟨fun _ => by norm_num [c3s], le_refl 1, by norm_num⟩,
    by
      have h := seedGeneration_spec c3s 0 [0] 1 1 1 0
        (fun _ => by norm_num [c3s]) (le_refl 1) (le_refl 1) (by norm_num)
      simpa using h⟩

/-! C8: pairwise minimum distance of the Bridson phase. -/

theorem pMinDist_pos (width height : ℝ) (count : ℕ) (hw : 0 < width)
    (hh : 0 < height) (hcount : 0 < count) :
    0 < pMinDist width height count := by
  have hc : (0 : ℝ) < count := by exact_mod_cast hcount
  have hpi := Real.pi_pos
  unfold pMinDist
  positivity

theorem pCellSize_pos (width height : ℝ) (count : ℕ) (hw : 0 < width)
    (hh : 0 < height) (hcount : 0 < count) :
    0 < pCellSize width height count := by
  have := pMinDist_pos width height count hw hh hcount
  have h2 : (0 : ℝ) < Real.sqrt 2 := Real.sqrt_pos.mpr (by norm_num)
  unfold pCellSize
  positivity

theorem pMinDist_eq_sqrt2_cellSize (width height : ℝ) (count : ℕ) :
    pMinDist width height count = Real.sqrt 2 * pCellSize width height count := by
  have h2 : Real.sqrt 2 ≠ 0 := ne_of_gt (Real.sqrt_pos.mpr (by norm_num))
  unfold pCellSize
  field_simp

theorem floor_div_diff_le_two (cs a b : ℝ) (hcs : 0 < cs)
    (h : |a - b| < 2 * cs) : ⌊a / cs⌋ ≤ ⌊b / cs⌋ + 2 ∧ ⌊b / cs⌋ ≤ ⌊a / cs⌋ + 2 := by
  obtain ⟨h1, h2⟩ := abs_lt.mp h
  have hab : a / cs < b / cs + 2 := by
    rw [div_add' _ _ _ (ne_of_gt hcs), div_lt_div_iff_of_pos_right hcs]
    linarith
  have hba : b / cs < a / cs + 2 := by
    rw [div_add' _ _ _ (ne_of_gt hcs), div_lt_div_iff_of_pos_right hcs]
    linarith
  constructor
  · have : ⌊a / cs⌋ < ⌊b / cs⌋ + 3 := by
      apply Int.floor_lt.mpr
      push_cast
      have := Int.lt_floor_add_one (b / cs)
      linarith
    omega
  · have : ⌊b / cs⌋ < ⌊a / cs⌋ + 3 := by
      apply Int.floor_lt.mpr
      push_cast
      have := Int.lt_floor_add_one (a / cs)
      linarith
    omega

theorem floor_div_eq_close (cs a b : ℝ) (hcs : 0 < cs)
    (h : ⌊a / cs⌋ = ⌊b / cs⌋) : |a - b| < cs := by
  have ha1 := Int.floor_le (a / cs)
  have ha2 := Int.lt_floor_add_one (a / cs)
  have hb1 := Int.floor_le (b / cs)
  have hb2 := Int.lt_floor_add_one (b / cs)
  rw [h] at ha1 ha2
  rw [abs_lt]
  constructor
  · have h2 : (b - a) / cs < 1 := by
      rw [sub_div]
      linarith
    have := (div_lt_one hcs).mp h2
    linarith
  · have h2 : (a - b) / cs < 1 := by
      rw [sub_div]
      linarith
    have := (div_lt_one hcs).mp h2
    linarith

theorem cell_in_grid_range (width height : ℝ) (count : ℕ) (p : ℝ × ℝ)
    (hw : 0 < width) (hh : 0 < height) (hcount : 0 < count)
    (hp : pInBounds width height p) :
    0 ≤ ⌊p.1 / pCellSize width height count⌋ ∧
    ⌊p.1 / pCellSize width height count⌋ < pGridWidth width height count ∧
    0 ≤ ⌊p.2 / pCellSize width height count⌋ ∧
    ⌊p.2 / pCellSize width height count⌋ < pGridHeight width height count := by
  obtain ⟨hx0, hx1, hy0, hy1⟩ := hp
  have hcs := pCellSize_pos width height count hw hh hcount
  refine ⟨?_, ?_, ?_, ?_⟩
  · exact Int.floor_nonneg.mpr (div_nonneg hx0 (le_of_lt hcs))
  · apply Int.floor_lt.mpr
    calc p.1 / pCellSize width height count
        < width / pCellSize width height count := by
          exact (div_lt_div_iff_of_pos_right hcs).mpr hx1
      _ ≤ ((pGridWidth width height count : ℤ) : ℝ) := Int.le_ceil _
  · exact Int.floor_nonneg.mpr (div_nonneg hy0 (le_of_lt hcs))
  · apply Int.floor_lt.mpr
    calc p.2 / pCellSize width height count
        < height / pCellSize width height count := by
          exact (div_lt_div_iff_of_pos_right hcs).mpr hy1
      _ ≤ ((pGridHeight width height count : ℤ) : ℝ) := Int.le_ceil _

theorem pGridIndex_inj (width height : ℝ) (count : ℕ) (p q : ℝ × ℝ)
    (hw : 0 < width) (hh : 0 < height) (hcount : 0 < count)
    (hp : pInBounds width height p) (hq : pInBounds width height q)
    (heq : pGridIndex width height count p = pGridIndex width height count q) :
    ⌊p.1 / pCellSize width height count⌋ = ⌊q.1 / pCellSize width height count⌋ ∧
    ⌊p.2 / pCellSize width height count⌋ = ⌊q.2 / pCellSize width height count⌋ := by
  obtain ⟨hpc0, hpc1, _, _⟩ := cell_in_grid_range width height count p hw hh hcount hp
  obtain ⟨hqc0, hqc1, _, _⟩ := cell_in_grid_range width height count q hw hh hcount hq
  set GW := pGridWidth width height count with hGW
  set cp := ⌊p.1 / pCellSize width height count⌋ with hcp
  set rp := ⌊p.2 / pCellSize width height count⌋ with hrp
  set cq := ⌊q.1 / pCellSize width height count⌋ with hcq
  set rq := ⌊q.2 / pCellSize width height count⌋ with hrq
  have heq2 : rp * GW + cp = rq * GW + cq := heq
  have hmodp : (cp + GW * rp) % GW = cp := by
    rw [Int.add_mul_emod_self_left]
    exact Int.emod_eq_of_lt hpc0 hpc1
  have hmodq : (cq + GW * rq) % GW = cq := by
    rw [Int.add_mul_emod_self_left]
    exact Int.emod_eq_of_lt hqc0 hqc1
  have hc : cp = cq := by
    rw [← hmodp, ← hmodq]
    congr 1
    linarith
  refine ⟨hc, ?_⟩
  have hGWpos : 0 < GW := by omega
  have : rp * GW = rq * GW := by omega
  exact mul_right_cancel₀ (by omega) this

theorem abs_le_jhypot_left (a b : ℝ) : |a| ≤ jhypot a b := by
  unfold jhypot
  rw [← Real.sqrt_sq_eq_abs]
  exact Real.sqrt_le_sqrt (by nlinarith [sq_nonneg b])

theorem abs_le_jhypot_right (a b : ℝ) : |b| ≤ jhypot a b := by
  unfold jhypot
  rw [← Real.sqrt_sq_eq_abs]
  exact Real.sqrt_le_sqrt (by nlinarith [sq_nonneg a])

theorem jhypot_lt_of_same_cell (cs : ℝ) (hcs : 0 < cs) (p q : ℝ × ℝ)
    (h1 : ⌊p.1 / cs⌋ = ⌊q.1 / cs⌋) (h2 : ⌊p.2 / cs⌋ = ⌊q.2 / cs⌋) :
    jhypot (p.1 - q.1) (p.2 - q.2) < Real.sqrt 2 * cs := by
  have hx := floor_div_eq_close cs p.1 q.1 hcs h1
  have hy := floor_div_eq_close cs p.2 q.2 hcs h2
  have hx2 : (p.1 - q.1) ^ 2 < cs ^ 2 :=
    sq_lt_sq' (abs_lt.mp hx).1 (abs_lt.mp hx).2
  have hy2 : (p.2 - q.2) ^ 2 < cs ^ 2 :=
    sq_lt_sq' (abs_lt.mp hy).1 (abs_lt.mp hy).2
  have hpos : 0 < Real.sqrt 2 * cs :=
    mul_pos (Real.sqrt_pos.mpr (by norm_num)) hcs
  unfold jhypot
  rw [Real.sqrt_lt' hpos]
  have hs : (Real.sqrt 2 * cs) ^ 2 = 2 * cs ^ 2 := by
    rw [mul_pow, Real.sq_sqrt (by norm_num : (0:ℝ) ≤ 2)]
  rw [hs]
  linarith

/-- "At least the Poisson minimum distance apart". -/
def pFar (width height : ℝ) (count : ℕ) (p q : ℝ × ℝ) : Prop :=
  pMinDist width height count ≤ jhypot (p.1 - q.1) (p.2 - q.2)

theorem jhypot_neg (a b : ℝ) : jhypot (-a) (-b) = jhypot a b := by
  unfold jhypot
  ring_nf

theorem pFar_symm {width height : ℝ} {count : ℕ} {p q : ℝ × ℝ}
    (h : pFar width height count p q) : pFar width height count q p := by
  unfold pFar at h ⊢
  rw [show q.1 - p.1 = -(p.1 - q.1) from by ring,
    show q.2 - p.2 = -(p.2 - q.2) from by ring, jhypot_neg]
  exact h

/-- A negative `isTooClose` scan really certifies distance ≥ `minDist`
from every point registered in the grid. -/
theorem isTooClose_eq_false_far (width height : ℝ) (count : ℕ)
    (grid : ℤ → Option (ℝ × ℝ)) (pts : List (ℝ × ℝ))
    (hw : 0 < width) (hh : 0 < height) (hcount : 0 < count)
    (hbounds : ∀ q ∈ pts, pInBounds width height q)
    (hgrid : ∀ q ∈ pts, grid (pGridIndex width height count q) = some q)
    (p : ℝ × ℝ)
    (hfar : isTooClose width height count grid p = false) :
    ∀ q ∈ pts, pFar width height count p q := by
  intro q hq
  by_contra hlt
  unfold pFar at hlt
  push_neg at hlt
  have hcs := pCellSize_pos width height count hw hh hcount
  have hr2 := pMinDist_eq_sqrt2_cellSize width height count
  have hsqrt2 : Real.sqrt 2 < 2 := by
    nlinarith [Real.sq_sqrt (show (0:ℝ) ≤ 2 by norm_num), Real.sqrt_nonneg 2]
  have hmlt : pMinDist width height count < 2 * pCellSize width height count := by
    rw [hr2]
    nlinarith
  have hdx : |p.1 - q.1| < 2 * pCellSize width height count :=
    lt_of_le_of_lt (abs_le_jhypot_left _ _) (lt_trans hlt hmlt)
  have hdy : |p.2 - q.2| < 2 * pCellSize width height count :=
    lt_of_le_of_lt (abs_le_jhypot_right _ _) (lt_trans hlt hmlt)
  obtain ⟨hd1, hd2⟩ := floor_div_diff_le_two _ p.1 q.1 hcs hdx
  obtain ⟨he1, he2⟩ := floor_div_diff_le_two _ p.2 q.2 hcs hdy
  obtain ⟨hqc0, hqc1, hqr0, hqr1⟩ :=
    cell_in_grid_range width height count q hw hh hcount (hbounds q hq)
  have htrue : isTooClose width height count grid p = true := by
    unfold isTooClose
    rw [List.any_eq_true]
    refine ⟨⌊q.2 / pCellSize width height count⌋ -
      ⌊p.2 / pCellSize width height count⌋, by simp [offsets5]; omega, ?_⟩
    rw [List.any_eq_true]
    refine ⟨⌊q.1 / pCellSize width height count⌋ -
      ⌊p.1 / pCellSize width height count⌋, by simp [offsets5]; omega, ?_⟩
    simp only [Bool.and_eq_true, decide_eq_true_eq]
    have harg : (⌊p.2 / pCellSize width height count⌋ +
        (⌊q.2 / pCellSize width height count⌋ -
          ⌊p.2 / pCellSize width height count⌋)) *
        pGridWidth width height count +
        (⌊p.1 / pCellSize width height count⌋ +
          (⌊q.1 / pCellSize width height count⌋ -
            ⌊p.1 / pCellSize width height count⌋)) =
        pGridIndex width height count q := by
      unfold pGridIndex
      ring
    refine ⟨⟨⟨⟨by omega, by omega⟩, by omega⟩, by omega⟩, ?_⟩
    rw [harg, hgrid q hq]
    exact decide_eq_true hlt
  rw [hfar] at htrue
  exact Bool.false_ne_true htrue

/-- An accepted candidate passed a negative `isTooClose` scan. -/
theorem tryCandidates_some_notClose (s : ℕ → ℝ) (width height : ℝ)
    (count : ℕ) (grid : ℤ → Option (ℝ × ℝ)) (point : ℝ × ℝ) :
    ∀ (k ctr : ℕ) (np : ℝ × ℝ) (c2 : ℕ),
      tryCandidates s width height count grid point k ctr = (some np, c2) →
      isTooClose width height count grid np = false := by
  intro k
  induction k with
  | zero =>
    intro ctr np c2 heq
    exact absurd heq (by simp [tryCandidates])
  | succ k ih =>
    intro ctr np c2 heq
    rw [tryCandidates] at heq
    split at heq
    · next hcond =>
      obtain ⟨_, _, _, _, h5⟩ := hcond
      cases heq
      exact h5
    · exact ih _ np c2 heq

/-- The loop invariant of the Bridson phase: points in bounds, pairwise
at least `minDist` apart, and each point registered in the grid at its
own cell. -/
def pInv (width height : ℝ) (count : ℕ) (st : PoissonState) : Prop :=
  (∀ p ∈ st.points, pInBounds width height p) ∧
  List.Pairwise (pFar width height count) st.points ∧
  ∀ q ∈ st.points, st.grid (pGridIndex width height count q) = some q

theorem pInv_accept (width height : ℝ) (count : ℕ) (st : PoissonState)
    (hw : 0 < width) (hh : 0 < height) (hcount : 0 < count)
    (hinv : pInv width height count st) (np : ℝ × ℝ) (ctr2 : ℕ)
    (hnp : pInBounds width height np)
    (hclose : isTooClose width height count st.grid np = false) :
    pInv width height count
      { points := st.points ++ [np], active := st.active ++ [np],
        grid := Function.update st.grid
          (pGridIndex width height count np) (some np),
        ctr := ctr2 } := by
  obtain ⟨hb, hpw, hg⟩ := hinv
  have hfar : ∀ q ∈ st.points, pFar width height count np q :=
    isTooClose_eq_false_far width height count st.grid st.points
      hw hh hcount hb hg np hclose
  have hidx : ∀ q ∈ st.points,
      pGridIndex width height count q ≠ pGridIndex width height count np := by
    intro q hq heq
    obtain ⟨h1, h2⟩ := pGridIndex_inj width height count q np hw hh hcount
      (hb q hq) hnp heq
    have hclose2 := jhypot_lt_of_same_cell _
      (pCellSize_pos width height count hw hh hcount) np q h1.symm h2.symm
    have := hfar q hq
    unfold pFar at this
    rw [pMinDist_eq_sqrt2_cellSize] at this
    linarith
  refine ⟨?_, ?_, ?_⟩
  · intro p hp
    rcases List.mem_append.mp hp with hp | hp
    · exact hb p hp
    · rw [List.mem_singleton.mp hp]
      exact hnp
  · rw [List.pairwise_append]
    refine ⟨hpw, List.pairwise_singleton _ _, ?_⟩
    intro p hp q hq
    rw [List.mem_singleton.mp hq]
    exact pFar_symm (hfar p hp)
  · intro q hq
    rcases List.mem_append.mp hq with hq | hq
    · show Function.update st.grid _ _ _ = _
      rw [Function.update_noteq (hidx q hq)]
      exact hg q hq
    · rw [List.mem_singleton.mp hq]
      show Function.update st.grid _ _ _ = _
      rw [Function.update_same]

theorem poissonLoop_inv (s : ℕ → ℝ) (width height : ℝ) (count : ℕ)
    (hw : 0 < width) (hh : 0 < height) (hcount : 0 < count)
    (st : PoissonState) (hinv : pInv width height count st) :
    pInv width height count (poissonLoop s width height count st) := by
  induction st using poissonLoop.induct s width height count with
  | case1 x h np ctr2 htry ih =>
    rw [poissonLoop, dif_pos h, htry]
    exact ih (pInv_accept width height count x hw hh hcount hinv np ctr2
      (tryCandidates_some_inBounds s width height count x.grid _ _ _ np _ htry)
      (tryCandidates_some_notClose s width height count x.grid _ _ _ np _ htry))
  | case2 x h ctr2 htry ih =>
    rw [poissonLoop, dif_pos h, htry]
    exact ih ⟨hinv.1, hinv.2.1, hinv.2.2⟩
  | case3 x h =>
    rw [poissonLoop, dif_neg h]
    exact hinv

/-- C8 (amended): every pair of distinct points placed by the Bridson
phase of `generatePoissonPoints` is at distance at least
`pMinDist = 0.8·√(width·height/(count·π))`; the uniform top-up that fills
the output to `count` points applies no distance check, so the final
point set need not satisfy the bound. -/
theorem generatePoissonPoints_bridson_minDist (s : ℕ → ℝ) (c : ℕ)
    (width height : ℝ) (count : ℕ)
    (hdraws : ∀ n, 0 ≤ s n ∧ s n < 1) (hw : 0 < width) (hh : 0 < height)
    (hcount : 0 < count) :
    List.Pairwise (pFar width height count)
      (poissonCoreState s c width height count).points := by
  have hp0 : pInBounds width height (s c * width, s (c + 1) * height) := by
    obtain ⟨hx0, hx1⟩ := rand_mul_bounds _ width (hdraws c).1 (hdraws c).2 hw
    obtain ⟨hy0, hy1⟩ := rand_mul_bounds _ height (hdraws (c + 1)).1
      (hdraws (c + 1)).2 hh
    exact ⟨hx0, hx1, hy0, hy1⟩
  have h0 : pInv width height count
      { points := [(s c * width, s (c + 1) * height)],
        active := [(s c * width, s (c + 1) * height)],
        grid := Function.update (fun _ => none)
          (pGridIndex width height count (s c * width, s (c + 1) * height))
          (some (s c * width, s (c + 1) * height)),
        ctr := c + 2 } := by
    refine ⟨?_, List.pairwise_singleton _ _, ?_⟩
    · intro p hp
      rw [List.mem_singleton.mp hp]
      exact hp0
    · intro q hq
      rw [List.mem_singleton.mp hq]
      dsimp only
      rw [Function.update_same]
  exact (poissonLoop_inv s width height count hw hh hcount _ h0).2.1

theorem generatePoissonPoints_bridson_minDist_witness :
    ((∀ n : ℕ, 0 ≤ c3s n ∧ c3s n < 1) ∧ (0 : ℝ) < 1 ∧ (0 : ℕ) < 1) ∧
    List.Pairwise (pFar 1 1 1) (poissonCoreState c3s 0 1 1 1).points :=
  ⟨⟨fun _ => by norm_num [c3s], by norm_num, by norm_num⟩,
    generatePoissonPoints_bridson_minDist c3s 0 1 1 1
      (fun _ => by norm_num [c3s]) (by norm_num) (by norm_num) (by norm_num)⟩

/-- The draw stream of the C8 counterexample: the first point lands at
`(1/2, 1/2)`; every Bridson candidate attempt draws angle `0` and
distance fraction `9/10`, pushing the candidate out of the unit square;
the top-up then draws `(1/2, 3/5)`. -/
noncomputable def c8s : ℕ → ℝ := fun n =>
  if n ≤ 1 then 1/2
  else if n = 63 then 1/2
  else if n = 64 then 3/5
  else if n % 2 = 1 then 0
  else 9/10

theorem c8s_odd (n : ℕ) (h1 : 3 ≤ n) (h2 : n ≤ 61) (h3 : n % 2 = 1) :
    c8s n = 0 := by
  unfold c8s
  rw [if_neg (by omega), if_neg (by omega), if_neg (by omega), if_pos h3]

theorem c8s_even (n : ℕ) (h1 : 2 ≤ n) (h2 : n ≤ 62) (h3 : n % 2 = 0) :
    c8s n = 9/10 := by
  unfold c8s
  rw [if_neg (by omega), if_neg (by omega), if_neg (by omega),
    if_neg (by omega)]

theorem c8_r_lb : (5 : ℝ)/19 ≤ pMinDist 1 1 2 := by
  unfold pMinDist
  have hpi0 := Real.pi_pos
  have hpi := Real.pi_lt_315
  have h1 : ((25 : ℝ)/76)^2 ≤ 1 * 1 / ((2 : ℕ) : ℝ) / Real.pi := by
    rw [div_div, le_div_iff₀ (by positivity)]
    push_cast
    nlinarith
  have h2 := Real.sqrt_le_sqrt h1
  rw [Real.sqrt_sq (by norm_num : (0:ℝ) ≤ 25/76)] at h2
  nlinarith

theorem c8_try_none (grid : ℤ → Option (ℝ × ℝ)) (point : ℝ × ℝ)
    (hx : point.1 = 1/2) :
    ∀ (k j : ℕ), 3 + 2 * (j + k) ≤ 63 →
      tryCandidates c8s 1 1 2 grid point k (3 + 2 * j) =
        (none, 3 + 2 * (j + k)) := by
  intro k
  induction k with
  | zero =>
    intro j _
    rw [tryCandidates]
    norm_num
  | succ k ih =>
    intro j h
    have ha : c8s (3 + 2 * j) = 0 := c8s_odd _ (by omega) (by omega) (by omega)
    have hb : c8s (3 + 2 * j + 1) = 9/10 :=
      c8s_even _ (by omega) (by omega) (by omega)
    rw [tryCandidates, ha, hb]
    rw [show (0:ℝ) * Real.pi * 2 = 0 from by ring, Real.cos_zero]
    split
    · next hcond =>
      exfalso
      have hr := c8_r_lb
      have hx1 := hcond.2.1
      rw [hx] at hx1
      nlinarith
    · next hcond =>
      rw [show 3 + 2 * j + 1 + 1 = 3 + 2 * (j + 1) from by ring,
        show 3 + 2 * (j + (k + 1)) = 3 + 2 * ((j + 1) + k) from by ring]
      exact ih (j + 1) (by omega)

/-- The first point of the C8 counterexample run. -/
noncomputable def c8p0 : ℝ × ℝ := (c8s 0 * 1, c8s 1 * 1)

/-- The grid after registering the first point of the C8 run. -/
noncomputable def c8g0 : ℤ → Option (ℝ × ℝ) :=
  Function.update (fun _ => none) (pGridIndex 1 1 2 c8p0) (some c8p0)

theorem poissonLoop_exit (s : ℕ → ℝ) (width height : ℝ) (count : ℕ)
    (st : PoissonState) (hst : st.active.length = 0) :
    poissonLoop s width height count st = st := by
  rw [poissonLoop, dif_neg]
  intro hcond
  exact hcond.1 hst

theorem c8_core : poissonCoreState c8s 0 1 1 2 =
    { points := [c8p0], active := [], grid := c8g0, ctr := 63 } := by
  have htry : tryCandidates c8s 1 1 2
      (Function.update (fun _ => none)
        (pGridIndex 1 1 2 (c8s 0 * 1, c8s (0 + 1) * 1))
        (some (c8s 0 * 1, c8s (0 + 1) * 1)))
      (c8s 0 * 1, c8s (0 + 1) * 1) 30 3 = (none, 63) := by
    have h30 := c8_try_none
      (Function.update (fun _ => none)
        (pGridIndex 1 1 2 (c8s 0 * 1, c8s (0 + 1) * 1))
        (some (c8s 0 * 1, c8s (0 + 1) * 1)))
      (c8s 0 * 1, c8s (0 + 1) * 1)
      (by norm_num [c8s]) 30 0 (by norm_num)
    exact h30
  unfold poissonCoreState
  rw [poissonLoop]
  split
  · next hguard =>
    dsimp only
    rw [show (min (⌊c8s 2 * (([((c8s 0 * 1 : ℝ), (c8s 1 * 1 : ℝ))] :
        List (ℝ × ℝ)).length : ℕ)⌋.toNat) ((([((c8s 0 * 1 : ℝ),
        (c8s 1 * 1 : ℝ))] : List (ℝ × ℝ)).length) - 1)) = 0 from by simp]
    rw [List.getD_cons_zero]
    rw [show (2 + 1 : ℕ) = 3 from rfl]
    rw [htry]
    exact poissonLoop_exit c8s 1 1 2
      { points := [c8p0], active := [], grid := c8g0, ctr := 63 } rfl
  · next hguard =>
    exact absurd ⟨by simp, by norm_num⟩ hguard

/-- C8 counterexample: on a 1×1 square with `count = 2` and the stream
`c8s`, all 30 Bridson candidates fall out of bounds, the top-up appends
an unchecked uniform point, and the two output points are at distance
`1/10 < pMinDist 1 1 2`. -/
theorem generatePoissonPoints_counterexample :
    generatePoissonPoints c8s 0 1 1 2 =
      [((1:ℝ)/2, (1:ℝ)/2), ((1:ℝ)/2, (3:ℝ)/5)] ∧
    ¬ pFar 1 1 2 ((1:ℝ)/2, (1:ℝ)/2) ((1:ℝ)/2, (3:ℝ)/5) := by
  constructor
  · unfold generatePoissonPoints
    rw [c8_core]
    dsimp only
    rw [poissonTopUp]
    rw [if_pos (by norm_num)]
    rw [poissonTopUp]
    rw [if_neg (by norm_num)]
    norm_num [c8p0, c8s, List.take]
  · unfold pFar jhypot
    push_neg
    rw [show ((1:ℝ)/2 - 1/2)^2 + ((1:ℝ)/2 - 3/5)^2 = (1/10)^2 from by norm_num,
      Real.sqrt_sq (by norm_num : (0:ℝ) ≤ 1/10)]
    have := c8_r_lb
    linarith

/-! ### C1 & C2: vector emission (`src/lib/svg/generator.ts` and the
lighting modules it calls)

Modelled over `ℚ`.  The transcendental functions the lighting code uses
(`Math.sqrt`, `Math.cos`, `Math.sin`, `Math.atan2`, `Math.PI`) are
abstracted into a record `JSMath` of rational stand-ins; every claim in
this section is proved for an arbitrary such record, or refuted by a
concrete one.  `Math.random()` is the explicit stream `s : ℕ → ℚ` with a
counter advancing by one per call, exactly in source draw order.
JavaScript's decimal printing of a `number` is modelled by the canonical
injective rendering `numToStr` (integers print as integers, other
rationals as `num/den`); the layer-structure and determinism claims are
insensitive to this choice of rendering. -/

/-- The abstract stand-ins for `Math`'s transcendental functions. -/
structure JSMath where
  sqrtF : ℚ → ℚ
  cosF : ℚ → ℚ
  sinF : ℚ → ℚ
  atan2F : ℚ → ℚ → ℚ
  piF : ℚ

/-- Canonical rendering of a number interpolated into a template string. -/
def numToStr (q : ℚ) : String :=
  if q.den = 1 then toString q.num
  else toString q.num ++ "/" ++ toString q.den

/-- `Number.prototype.toFixed(2)`, modelled as round-half-up to two
decimal digits. -/
def toFixed2 (q : ℚ) : String :=
  let n : ℤ := jround (q * 100)
  let a : ℕ := n.natAbs
  (if n < 0 then "-" else "") ++ toString (a / 100) ++ "." ++
    (if a % 100 < 10 then "0" else "") ++ toString (a % 100)

/-- `n.toString(16).padStart(2, '0')` for a byte value. -/
def hexPad2 (n : ℕ) : String :=
  let s := String.mk (Nat.toDigits 16 n)
  if s.length = 1 then "0" ++ s else s

/-- `rgbToHex` from `src/lib/svg/generator.ts`: clamp each channel to
`[0, 255]`, then two lowercase hex digits. -/
def rgbToHex (color : RGB) : String :=
  "#" ++ hexPad2 (max 0 (min 255 color.r)).toNat ++
    hexPad2 (max 0 (min 255 color.g)).toNat ++
    hexPad2 (max 0 (min 255 color.b)).toNat

/-- `rgbToHex` from `src/lib/svg/frames.ts`: `Math.round` before the
clamp (a no-op on the integer channels of `RGB`), then pad to length 2. -/
def frameRgbToHex (color : RGB) : String :=
  "#" ++ hexPad2 (max 0 (min 255 (jround (color.r : ℚ)))).toNat ++
    hexPad2 (max 0 (min 255 (jround (color.g : ℚ)))).toNat ++
    hexPad2 (max 0 (min 255 (jround (color.b : ℚ)))).toNat

/-- The local `rgbToHex` of `src/lib/lighting/glow.ts`: no clamp (its
inputs are rounded `hue2rgb` bytes); `toNat` models the nonnegative
integer channels. -/
def glowRgbToHex (r g b : ℤ) : String :=
  "#" ++ hexPad2 r.toNat ++ hexPad2 g.toNat ++ hexPad2 b.toNat

/-- `polygonToPath` from `src/lib/svg/generator.ts`: `M`/`L` commands
with `toFixed(2)` coordinates, joined by single spaces, closed by `Z`. -/
def polygonToPath (polygon : List PointQ) : String :=
  match polygon with
  | [] => ""
  | p0 :: rest =>
    String.intercalate " "
      (("M " ++ toFixed2 p0.x ++ " " ++ toFixed2 p0.y) ::
        (rest.map (fun p => "L " ++ toFixed2 p.x ++ " " ++ toFixed2 p.y) ++ ["Z"]))

/-- The local `polygonToPath` of `src/lib/lighting/glow.ts`: raw
(unrounded) coordinates and slightly different spacing. -/
def glowPolygonToPath (polygon : List PointQ) : String :=
  match polygon with
  | [] => ""
  | p0 :: rest =>
    "M " ++ numToStr p0.x ++ " " ++ numToStr p0.y ++ " " ++
      String.intercalate " "
        (rest.map (fun p => "L " ++ numToStr p.x ++ " " ++ numToStr p.y)) ++
      " Z"

/-- A Voronoi cell with its sampled color (`ColoredCell` of
`src/types/index.ts`, restricted to the fields the emitter reads). -/
structure ColoredCell where
  polygon : List PointQ
  color : RGB

/-- `FrameElement` from `src/lib/svg/frames.ts`. -/
structure FrameElement where
  polygon : List PointQ
  color : RGB

/-- `LightPreset` from `src/types/index.ts`. -/
inductive LightPreset where
  | custom
  | center
  | topLeft
  | top
  | topRight
  | right
  | bottomRight
  | bottom
  | bottomLeft
  | left
deriving DecidableEq

/-- The `rays` sub-record of `LightSettings`. -/
structure RaySettings where
  enabled : Bool
  count : ℕ
  intensity : ℚ
  spread : ℚ
  length : ℚ

/-- The `glow` sub-record of `LightSettings`. -/
structure GlowSettings where
  enabled : Bool
  intensity : ℚ
  radius : ℚ

/-- `LightSettings` from `src/types/index.ts`. -/
structure LightSettings where
  enabled : Bool
  preset : LightPreset
  angle : ℚ
  elevation : ℚ
  intensity : ℚ
  ambient : ℚ
  darkMode : Bool
  rays : RaySettings
  glow : GlowSettings

/-- `LIGHT_PRESET_ANGLES` from `src/types/index.ts` (the record excludes
`custom` and `center`; those cases are unreachable below). -/
def LIGHT_PRESET_ANGLES : LightPreset → ℚ
  | .topLeft => 315
  | .top => 270
  | .topRight => 225
  | .right => 180
  | .bottomRight => 135
  | .bottom => 90
  | .bottomLeft => 45
  | .left => 0
  | _ => 0

/-- `getEffectiveAngle` from `src/lib/lighting/transmission.ts`. -/
def getEffectiveAngle (lighting : LightSettings) : ℚ :=
  if lighting.preset = LightPreset.custom then lighting.angle
  else if lighting.preset = LightPreset.center then 0
  else LIGHT_PRESET_ANGLES lighting.preset

/-- The transmission module's private `getLightSourcePosition`
(distance `2·max(W,H)` from the center). -/
def lightSourceT (m : JSMath) (angle width height : ℚ) : PointQ :=
  { x := width / 2 + m.cosF (angle * m.piF / 180) * (max width height * 2),
    y := height / 2 + m.sinF (angle * m.piF / 180) * (max width height * 2) }

/-- `calculateCellBrightness` from `src/lib/lighting/transmission.ts`. -/
def calculateCellBrightness (m : JSMath) (cellCentroid : PointQ)
    (lightAngle lightElevation : ℚ) (width height : ℚ)
    (isCenter : Bool) : ℚ :=
  if isCenter then 1/2 + lightElevation / 90 * (1/2)
  else
    let lightSource := lightSourceT m lightAngle width height
    let lightDirX := lightSource.x - width / 2
    let lightDirY := lightSource.y - height / 2
    let lightDirLength := m.sqrtF (lightDirX * lightDirX + lightDirY * lightDirY)
    let normLightX := lightDirX / lightDirLength
    let normLightY := lightDirY / lightDirLength
    let cellDirX := cellCentroid.x - width / 2
    let cellDirY := cellCentroid.y - height / 2
    let projection := cellDirX * normLightX + cellDirY * normLightY
    let diagonal := m.sqrtF (width * width + height * height) / 2
    let normalizedPosition := (projection / diagonal + 1) / 2
    let elevationFactor := lightElevation / 90
    let gradientStrength := 1 - elevationFactor * (7/10)
    let baseBrightness := 3/10 + normalizedPosition * (7/10)
    let brightness := 1/2 + (baseBrightness - 1/2) * gradientStrength
    max (1/5) (min 1 brightness)

/-- `adjustBrightness` from `src/lib/lighting/transmission.ts`: HSL
round-trip with `l` scaled by `brightness` and clamped to `[0, 1]`
(`h`, `s` untouched); grayscale short-circuit for `s = 0` via
`hslToRgb`. -/
def adjustBrightness (color : RGB) (brightness : ℚ) : RGB :=
  let r := (color.r : ℚ) / 255
  let g := (color.g : ℚ) / 255
  let b := (color.b : ℚ) / 255
  hslToRgb (hslH r g b) (hslS r g b) (min 1 (max 0 (hslL r g b * brightness)))

/-- `applyLightTransmission` from `src/lib/lighting/transmission.ts`. -/
def applyLightTransmission (m : JSMath) (cells : List ColoredCell)
    (lighting : LightSettings) (width height : ℚ) : List ColoredCell :=
  if lighting.enabled = false then cells
  else
    cells.map (fun cell =>
      { polygon := cell.polygon,
        color := adjustBrightness cell.color
          ((lighting.ambient +
            (1 - lighting.ambient) *
              calculateCellBrightness m (calculateCentroid cell.polygon)
                (getEffectiveAngle lighting) lighting.elevation width height
                (decide (lighting.preset = LightPreset.center))) *
            lighting.intensity) })

/-- `CellCluster` from `src/lib/lighting/rays.ts`. -/
structure CellCluster where
  cells : List ColoredCell
  centroid : PointQ
  dominantColor : RGB

/-- `calculateDominantColor` from `src/lib/lighting/rays.ts`: rounded
per-channel mean (the `length = 0` branch returns white). -/
def calculateDominantColor (cells : List ColoredCell) : RGB :=
  if cells.length = 0 then { r := 255, g := 255, b := 255 }
  else
    { r := jround (((cells.map (fun c => c.color.r)).sum : ℚ) / cells.length),
      g := jround (((cells.map (fun c => c.color.g)).sum : ℚ) / cells.length),
      b := jround (((cells.map (fun c => c.color.b)).sum : ℚ) / cells.length) }

/-- The bucket `grid[y][x]` of `clusterCells`: cells whose clamped
centroid grid coordinates equal `(x, y)` (the source pushes in cell
order, which `filter` preserves). -/
def clusterBucket (cells : List ColoredCell) (cellWidth cellHeight : ℚ)
    (gridSize : ℕ) (x y : ℕ) : List ColoredCell :=
  cells.filter (fun cell =>
    let c := calculateCentroid cell.polygon
    let gridX := min ⌊c.x / cellWidth⌋ ((gridSize : ℤ) - 1)
    let gridY := min ⌊c.y / cellHeight⌋ ((gridSize : ℤ) - 1)
    decide (gridX = (x : ℤ)) && decide (gridY = (y : ℤ)) &&
      decide (0 ≤ gridX) && decide (0 ≤ gridY))

/-- `clusterCells` from `src/lib/lighting/rays.ts`: row-major scan of the
grid, one cluster per nonempty bucket. -/
def clusterCells (cells : List ColoredCell) (gridSize : ℕ)
    (width height : ℚ) : List CellCluster :=
  let cellWidth := width / gridSize
  let cellHeight := height / gridSize
  (List.range gridSize).flatMap (fun (y : ℕ) =>
    (List.range gridSize).filterMap (fun (x : ℕ) =>
      let bucket := clusterBucket cells cellWidth cellHeight gridSize x y
      if bucket.length = 0 then none
      else
        some { cells := bucket,
               centroid := { x := ((x : ℚ) + 1/2) * cellWidth,
                             y := ((y : ℚ) + 1/2) * cellHeight },
               dominantColor := calculateDominantColor bucket }))

/-- `getColorVibrance` from `src/lib/lighting/rays.ts`: the source
inlines exactly the `hslS`/`hslL` formulas and returns `s·l`. -/
def getColorVibrance (color : RGB) : ℚ :=
  hslS ((color.r : ℚ) / 255) ((color.g : ℚ) / 255) ((color.b : ℚ) / 255) *
    hslL ((color.r : ℚ) / 255) ((color.g : ℚ) / 255) ((color.b : ℚ) / 255)

/-- Stable insertion for the vibrance sort: an element moves past
exactly the later elements of strictly larger vibrance. -/
def insertByVibrance (x : CellCluster) : List CellCluster → List CellCluster
  | [] => [x]
  | y :: ys =>
    if getColorVibrance x.dominantColor < getColorVibrance y.dominantColor
    then y :: insertByVibrance x ys
    else x :: y :: ys

/-- The stable descending sort
`[...clusters].sort((a, b) => vibrance(b) - vibrance(a))`
(ECMAScript `Array.prototype.sort` is stable). -/
def sortByVibrance : List CellCluster → List CellCluster
  | [] => []
  | x :: xs => insertByVibrance x (sortByVibrance xs)

/-- The rays module's private `getLightSourcePosition` (distance
`max(W,H)`, center short-circuit). -/
def getLightSourcePositionGR (m : JSMath) (angle width height : ℚ)
    (isCenter : Bool) : PointQ :=
  if isCenter then { x := width / 2, y := height / 2 }
  else
    { x := width / 2 + m.cosF (angle * m.piF / 180) * max width height,
      y := height / 2 + m.sinF (angle * m.piF / 180) * max width height }

/-- `GodRay` from `src/lib/lighting/rays.ts`. -/
structure GodRay where
  origin : PointQ
  direction : ℚ
  color : RGB
  opacity : ℚ
  width : ℚ
  length : ℚ

/-- `GodRaySet` from `src/lib/lighting/rays.ts`. -/
structure GodRaySet where
  backRays : List GodRay
  frontRays : List GodRay

/-- One back ray of `generateGodRays` (the `forEach` body's first push);
draw indices `c + 2·index` (width) and `c + 2·index + 1` (length). -/
def backRayOf (m : JSMath) (s : ℕ → ℚ) (c : ℕ) (lightSource : PointQ)
    (isCenter : Bool) (rayCount : ℕ) (backRayLength baseWidth : ℚ)
    (lighting : LightSettings) (index : ℕ) (cluster : CellCluster) : GodRay :=
  let directionToCluster :=
    if isCenter then (index : ℚ) / rayCount * 2 * m.piF
    else m.atan2F (cluster.centroid.y - lightSource.y)
      (cluster.centroid.x - lightSource.x)
  let directionTowardLight := directionToCluster + m.piF
  let rayWidth := baseWidth * (1/2 + s (c + 2 * index) * (1/2))
  let lengthVariation := 7/10 + s (c + 2 * index + 1) * (3/10)
  let backOffset := backRayLength * (3/10)
  { origin := { x := cluster.centroid.x + m.cosF directionTowardLight * backOffset,
                y := cluster.centroid.y + m.sinF directionTowardLight * backOffset },
    direction := directionToCluster,
    color := cluster.dominantColor,
    opacity := lighting.rays.intensity * (8/10),
    width := rayWidth * (7/10),
    length := backRayLength * lengthVariation }

/-- One front ray of `generateGodRays` (the `forEach` body's second
push); it shares the same two draws as the back ray of the same index. -/
def frontRayOf (m : JSMath) (s : ℕ → ℚ) (c : ℕ) (lightSource : PointQ)
    (isCenter : Bool) (rayCount : ℕ) (frontRayLength baseWidth : ℚ)
    (lighting : LightSettings) (index : ℕ) (cluster : CellCluster) : GodRay :=
  let directionToCluster :=
    if isCenter then (index : ℚ) / rayCount * 2 * m.piF
    else m.atan2F (cluster.centroid.y - lightSource.y)
      (cluster.centroid.x - lightSource.x)
  let rayWidth := baseWidth * (1/2 + s (c + 2 * index) * (1/2))
  let lengthVariation := 7/10 + s (c + 2 * index + 1) * (3/10)
  { origin := cluster.centroid,
    direction := directionToCluster,
    color := cluster.dominantColor,
    opacity := lighting.rays.intensity * (1/2),
    width := rayWidth,
    length := frontRayLength * lengthVariation }

/-- `generateGodRays` from `src/lib/lighting/rays.ts` (current dual-layer
version): vibrance-sorted clusters, top `min(count, clusters)` selected,
two `Math.random()` draws per selected cluster in index order. -/
def generateGodRays (m : JSMath) (s : ℕ → ℚ) (c : ℕ)
    (clusters : List CellCluster) (lighting : LightSettings)
    (width height : ℚ) : GodRaySet :=
  if lighting.enabled = false ∨ lighting.rays.enabled = false ∨
      clusters.length = 0 then
    { backRays := [], frontRays := [] }
  else
    let effectiveAngle := getEffectiveAngle lighting
    let isCenter := decide (lighting.preset = LightPreset.center)
    let lightSource :=
      getLightSourcePositionGR m effectiveAngle width height isCenter
    let sortedClusters := sortByVibrance clusters
    let rayCount := min lighting.rays.count sortedClusters.length
    let selectedClusters := sortedClusters.take rayCount
    let diagonal := m.sqrtF (width * width + height * height)
    let frontRayLength := diagonal * lighting.rays.length
    let backRayLength := frontRayLength * (1/4)
    let baseWidth := width / rayCount * (lighting.rays.spread / 45)
    { backRays := selectedClusters.enum.map (fun ic =>
        backRayOf m s c lightSource isCenter rayCount backRayLength baseWidth
          lighting ic.1 ic.2),
      frontRays := selectedClusters.enum.map (fun ic =>
        frontRayOf m s c lightSource isCenter rayCount frontRayLength baseWidth
          lighting ic.1 ic.2) }

/-- `rgbToString` from `src/lib/lighting/rays.ts`. -/
def rgbToString (color : RGB) (alpha : ℚ) : String :=
  "rgba(" ++ toString color.r ++ ", " ++ toString color.g ++ ", " ++
    toString color.b ++ ", " ++ numToStr alpha ++ ")"

/-- One element of `renderBackRaysToSVG`'s `rays.map`. -/
def backRayElem (m : JSMath) (darkMode : Bool) (ic : ℕ × GodRay) : String :=
  let i := ic.1
  let ray := ic.2
  let endX := ray.origin.x + m.cosF ray.direction * ray.length
  let endY := ray.origin.y + m.sinF ray.direction * ray.length
  let perpAngle := ray.direction + m.piF / 2
  let halfWidth := ray.width / 2
  let endHalfWidth := ray.width * 2
  let x1 := ray.origin.x + m.cosF perpAngle * halfWidth
  let y1 := ray.origin.y + m.sinF perpAngle * halfWidth
  let x2 := ray.origin.x - m.cosF perpAngle * halfWidth
  let y2 := ray.origin.y - m.sinF perpAngle * halfWidth
  let x3 := endX - m.cosF perpAngle * endHalfWidth
  let y3 := endY - m.sinF perpAngle * endHalfWidth
  let x4 := endX + m.cosF perpAngle * endHalfWidth
  let y4 := endY + m.sinF perpAngle * endHalfWidth
  let gradientId := "backRayGradient" ++ toString i
  let opacity := if darkMode then ray.opacity * (14/10) else ray.opacity
  let brightColor : RGB :=
    { r := min 255 (ray.color.r + 80),
      g := min 255 (ray.color.g + 80),
      b := min 255 (ray.color.b + 80) }
  "\n    <linearGradient id=\"" ++ gradientId ++ "\" x1=\"" ++
    numToStr ray.origin.x ++ "\" y1=\"" ++ numToStr ray.origin.y ++
    "\" x2=\"" ++ numToStr endX ++ "\" y2=\"" ++ numToStr endY ++
    "\" gradientUnits=\"userSpaceOnUse\">\n      <stop offset=\"0%\" stop-color=\"" ++
    rgbToString brightColor (opacity * (8/10)) ++
    "\" />\n      <stop offset=\"50%\" stop-color=\"" ++
    rgbToString brightColor opacity ++
    "\" />\n      <stop offset=\"100%\" stop-color=\"" ++
    rgbToString brightColor (opacity * (3/10)) ++
    "\" />\n    </linearGradient>\n    <polygon points=\"" ++
    numToStr x1 ++ "," ++ numToStr y1 ++ " " ++ numToStr x2 ++ "," ++
    numToStr y2 ++ " " ++ numToStr x3 ++ "," ++ numToStr y3 ++ " " ++
    numToStr x4 ++ "," ++ numToStr y4 ++
    "\"\n      fill=\"url(#" ++ gradientId ++
    ")\"\n      filter=\"url(#rayFilter)\" />"

/-- `renderBackRaysToSVG` from `src/lib/lighting/rays.ts`. -/
def renderBackRaysToSVG (m : JSMath) (rays : List GodRay)
    (width height : ℚ) (darkMode : Bool) : String :=
  if rays.length = 0 then ""
  else
    "\n  <g class=\"back-light-rays\" style=\"mix-blend-mode: screen\">\n    " ++
      String.join (rays.enum.map (backRayElem m darkMode)) ++ "\n  </g>"

/-- One element of `renderFrontRaysToSVG`'s `rays.map` (gradient, origin
glow, polygon). -/
def frontRayElem (m : JSMath) (darkMode : Bool) (ic : ℕ × GodRay) : String :=
  let i := ic.1
  let ray := ic.2
  let endX := ray.origin.x + m.cosF ray.direction * ray.length
  let endY := ray.origin.y + m.sinF ray.direction * ray.length
  let perpAngle := ray.direction + m.piF / 2
  let halfWidth := ray.width / 2
  let endHalfWidth := ray.width * (7/2)
  let x1 := ray.origin.x + m.cosF perpAngle * halfWidth
  let y1 := ray.origin.y + m.sinF perpAngle * halfWidth
  let x2 := ray.origin.x - m.cosF perpAngle * halfWidth
  let y2 := ray.origin.y - m.sinF perpAngle * halfWidth
  let x3 := endX - m.cosF perpAngle * endHalfWidth
  let y3 := endY - m.sinF perpAngle * endHalfWidth
  let x4 := endX + m.cosF perpAngle * endHalfWidth
  let y4 := endY + m.sinF perpAngle * endHalfWidth
  let gradientId := "frontRayGradient" ++ toString i
  let glowId := "rayGlow" ++ toString i
  let opacity := if darkMode then ray.opacity * (13/10) else ray.opacity
  let lightColor : RGB :=
    { r := min 255 (ray.color.r + 50),
      g := min 255 (ray.color.g + 50),
      b := min 255 (ray.color.b + 50) }
  let glowRadius := ray.width * (3/2)
  let glowElement :=
    "\n    <radialGradient id=\"" ++ glowId ++ "\" cx=\"" ++
      numToStr ray.origin.x ++ "\" cy=\"" ++ numToStr ray.origin.y ++
      "\" r=\"" ++ numToStr glowRadius ++
      "\" gradientUnits=\"userSpaceOnUse\">\n      <stop offset=\"0%\" stop-color=\"" ++
      rgbToString lightColor (opacity * (8/10)) ++
      "\" />\n      <stop offset=\"100%\" stop-color=\"" ++
      rgbToString lightColor 0 ++
      "\" />\n    </radialGradient>\n    <circle cx=\"" ++
      numToStr ray.origin.x ++ "\" cy=\"" ++ numToStr ray.origin.y ++
      "\" r=\"" ++ numToStr glowRadius ++ "\" fill=\"url(#" ++ glowId ++
      ")\" />"
  "\n    <linearGradient id=\"" ++ gradientId ++ "\" x1=\"" ++
    numToStr ray.origin.x ++ "\" y1=\"" ++ numToStr ray.origin.y ++
    "\" x2=\"" ++ numToStr endX ++ "\" y2=\"" ++ numToStr endY ++
    "\" gradientUnits=\"userSpaceOnUse\">\n      <stop offset=\"0%\" stop-color=\"" ++
    rgbToString lightColor opacity ++
    "\" />\n      <stop offset=\"30%\" stop-color=\"" ++
    rgbToString lightColor (opacity * (6/10)) ++
    "\" />\n      <stop offset=\"70%\" stop-color=\"" ++
    rgbToString lightColor (opacity * (2/10)) ++
    "\" />\n      <stop offset=\"100%\" stop-color=\"" ++
    rgbToString lightColor 0 ++
    "\" />\n    </linearGradient>\n    " ++ glowElement ++
    "\n    <polygon points=\"" ++
    numToStr x1 ++ "," ++ numToStr y1 ++ " " ++ numToStr x2 ++ "," ++
    numToStr y2 ++ " " ++ numToStr x3 ++ "," ++ numToStr y3 ++ " " ++
    numToStr x4 ++ "," ++ numToStr y4 ++
    "\"\n      fill=\"url(#" ++ gradientId ++
    ")\"\n      filter=\"url(#rayFilter)\" />"

/-- `renderFrontRaysToSVG` from `src/lib/lighting/rays.ts`. -/
def renderFrontRaysToSVG (m : JSMath) (rays : List GodRay)
    (width height : ℚ) (darkMode : Bool) : String :=
  if rays.length = 0 then ""
  else
    "\n  <g class=\"front-light-rays\" style=\"mix-blend-mode: " ++
      (if darkMode then "screen" else "soft-light") ++ "\">\n    " ++
      String.join (rays.enum.map (frontRayElem m darkMode)) ++ "\n  </g>"

/-- `getGlowBlendMode` from `src/lib/lighting/filters.ts`. -/
def getGlowBlendMode (darkMode : Bool) : String :=
  if darkMode then "screen" else "multiply"

/-- `getGlowIntensityMultiplier` from `src/lib/lighting/filters.ts`. -/
def getGlowIntensityMultiplier (darkMode : Bool) : ℚ :=
  if darkMode then 3/2 else 1

/-- `boostSaturation` from `src/lib/lighting/glow.ts`: the source inlines
the `hslH`/`hslS`/`hslL` formulas, boosts `s` by `factor` clamped to 1,
and converts back through the same `hue2rgb` (with the grayscale
short-circuit on the boosted `s`). -/
def boostSaturation (r g b : ℤ) (factor : ℚ) : RGB :=
  let rq := (r : ℚ) / 255
  let gq := (g : ℚ) / 255
  let bq := (b : ℚ) / 255
  hslToRgb (hslH rq gq bq) (min 1 (hslS rq gq bq * factor)) (hslL rq gq bq)

/-- `renderGlowLayer` from `src/lib/lighting/glow.ts`. -/
def renderGlowLayer (cells : List ColoredCell) (lighting : LightSettings)
    (width height : ℚ) : String :=
  if lighting.enabled = false ∨ lighting.glow.enabled = false ∨
      lighting.glow.intensity = 0 then ""
  else
    let blendMode := getGlowBlendMode lighting.darkMode
    let glowOpacity :=
      lighting.glow.intensity * getGlowIntensityMultiplier lighting.darkMode *
        (7/10)
    let glowPaths := cells.map (fun cell =>
      let boostedColor :=
        boostSaturation cell.color.r cell.color.g cell.color.b (13/10)
      "<path d=\"" ++ glowPolygonToPath cell.polygon ++ "\" fill=\"" ++
        glowRgbToHex boostedColor.r boostedColor.g boostedColor.b ++ "\" />")
    "\n  <g class=\"glow-layer\" style=\"mix-blend-mode: " ++ blendMode ++
      "; opacity: " ++ numToStr glowOpacity ++
      "\" filter=\"url(#glowFilter)\">\n    " ++
      String.intercalate "\n    " glowPaths ++ "\n  </g>"

/-- `generateLightingDefs` from `src/lib/lighting/filters.ts`. -/
def generateLightingDefs (lighting : LightSettings) : String :=
  if lighting.enabled = false then ""
  else
    let glowDef : Option String :=
      if lighting.glow.enabled = true ∧ 0 < lighting.glow.intensity then
        some ("\n    <filter id=\"glowFilter\" x=\"-50%\" y=\"-50%\" width=\"200%\" height=\"200%\">\n      <feGaussianBlur in=\"SourceGraphic\" stdDeviation=\"" ++
          numToStr (lighting.glow.radius * lighting.glow.intensity) ++
          "\" result=\"blur\"/>\n      <feColorMatrix in=\"blur\" type=\"saturate\" values=\"1.2\" result=\"saturatedBlur\"/>\n    </filter>")
      else none
    let rayDef : Option String :=
      if lighting.rays.enabled = true ∧ 0 < lighting.rays.intensity then
        some ("\n    <filter id=\"rayFilter\" x=\"-100%\" y=\"-100%\" width=\"300%\" height=\"300%\">\n      <feGaussianBlur in=\"SourceGraphic\" stdDeviation=\"" ++
          numToStr (3 + lighting.rays.spread * (1/10)) ++
          "\" result=\"blur\"/>\n      <feColorMatrix in=\"blur\" type=\"matrix\"\n        values=\"1 0 0 0 0\n                0 1 0 0 0\n                0 0 1 0 0\n                0 0 0 " ++
          numToStr (lighting.rays.intensity * (3/2)) ++
          " 0\" result=\"brightBlur\"/>\n    </filter>")
      else none
    let defs := glowDef.toList ++ rayDef.toList
    if defs.length = 0 then ""
    else "<defs>" ++ String.join defs ++ "\n  </defs>"

/-- `SVGOptions` from `src/lib/svg/generator.ts` (`frameElements`
defaults to `[]`, `lighting` is optional). -/
structure SVGOptions where
  lineWidth : ℚ
  lineColor : String
  width : ℚ
  height : ℚ
  frameElements : List FrameElement
  lighting : Option LightSettings

/-- `litCells` of `generateSVG`:
`lighting?.enabled ? applyLightTransmission(...) : cells`. -/
def litCellsOf (m : JSMath) (cells : List ColoredCell)
    (options : SVGOptions) : List ColoredCell :=
  match options.lighting with
  | some l =>
    if l.enabled then applyLightTransmission m cells l options.width options.height
    else cells
  | none => cells

/-- `raySet` of `generateSVG`: rays pre-generated when lighting and rays
are enabled, from clusters on a `ceil(sqrt(count·2))`-sized grid. -/
def raySetOf (m : JSMath) (s : ℕ → ℚ) (c : ℕ) (cells : List ColoredCell)
    (options : SVGOptions) : Option GodRaySet :=
  match options.lighting with
  | some l =>
    if l.enabled && l.rays.enabled then
      some (generateGodRays m s c
        (clusterCells (litCellsOf m cells options)
          (⌈m.sqrtF ((l.rays.count : ℚ) * 2)⌉.toNat) options.width
          options.height)
        l options.width options.height)
    else none
  | none => none

/-- The artwork-layer path element pushed per lit cell. -/
def cellPathElem (options : SVGOptions) (cell : ColoredCell) : String :=
  "    <path d=\"" ++ polygonToPath cell.polygon ++ "\" fill=\"" ++
    rgbToHex cell.color ++ "\" stroke=\"" ++ options.lineColor ++
    "\" stroke-width=\"" ++ numToStr options.lineWidth ++
    "\" stroke-linejoin=\"round\"/>"

/-- The frame-layer path element pushed per frame element. -/
def framePathElem (options : SVGOptions) (element : FrameElement) : String :=
  "    <path d=\"" ++ polygonToPath element.polygon ++ "\" fill=\"" ++
    frameRgbToHex element.color ++ "\" stroke=\"" ++ options.lineColor ++
    "\" stroke-width=\"" ++ numToStr options.lineWidth ++
    "\" stroke-linejoin=\"round\"/>"

/-- The pushes of `generateSVG` into `svgParts`, block by block in source
order: optional defs, background rect, optional back-ray layer, optional
frame group, artwork group, optional front-ray layer, optional glow
layer. -/
def generateSVGParts (m : JSMath) (s : ℕ → ℚ) (c : ℕ)
    (cells : List ColoredCell) (options : SVGOptions) : List String :=
  let litCells := litCellsOf m cells options
  let raySet := raySetOf m s c cells options
  (match options.lighting with
    | some l =>
      if l.enabled then
        (let defs := generateLightingDefs l
         if defs = "" then [] else [defs])
      else []
    | none => []) ++
  ["  <rect width=\"" ++ numToStr options.width ++ "\" height=\"" ++
    numToStr options.height ++ "\" fill=\"" ++
    (match options.lighting with
      | some l => if l.enabled && l.darkMode then "#1a1a1a" else "#ffffff"
      | none => "#ffffff") ++ "\"/>"] ++
  (match raySet, options.lighting with
    | some rs, some l =>
      if rs.backRays.length ≠ 0 then
        (let layer :=
          renderBackRaysToSVG m rs.backRays options.width options.height
            l.darkMode
         if layer = "" then [] else [layer])
      else []
    | _, _ => []) ++
  (if options.frameElements.length ≠ 0 then
    ["  <g class=\"frame\">"] ++
      options.frameElements.map (framePathElem options) ++ ["  </g>"]
  else []) ++
  (["  <g class=\"artwork\">"] ++ litCells.map (cellPathElem options) ++
    ["  </g>"]) ++
  (match raySet, options.lighting with
    | some rs, some l =>
      if rs.frontRays.length ≠ 0 then
        (let layer :=
          renderFrontRaysToSVG m rs.frontRays options.width options.height
            l.darkMode
         if layer = "" then [] else [layer])
      else []
    | _, _ => []) ++
  (match options.lighting with
    | some l =>
      if l.enabled && l.glow.enabled then
        (let layer := renderGlowLayer litCells l options.width options.height
         if layer = "" then [] else [layer])
      else []
    | none => [])

/-- `generateSVG` from `src/lib/svg/generator.ts`: the fixed envelope
around the newline-joined parts. -/
def generateSVG (m : JSMath) (s : ℕ → ℚ) (c : ℕ)
    (cells : List ColoredCell) (options : SVGOptions) : String :=
  "<svg xmlns=\"http://www.w3.org/2000/svg\" viewBox=\"0 0 " ++
    numToStr options.width ++ " " ++ numToStr options.height ++
    "\" width=\"" ++ numToStr options.width ++ "\" height=\"" ++
    numToStr options.height ++
    "\" preserveAspectRatio=\"xMidYMid meet\">\n" ++
    String.intercalate "\n" (generateSVGParts m s c cells options) ++
    "\n</svg>"

/-- The optional chain `lighting?.enabled` of `generateSVG`. -/
def lightingEnabledB (o : Option LightSettings) : Bool :=
  match o with
  | some l => l.enabled
  | none => false

/-- The background condition `lighting?.enabled && lighting.darkMode`. -/
def bgDarkB (o : Option LightSettings) : Bool :=
  match o with
  | some l => l.enabled && l.darkMode
  | none => false

theorem litCellsOf_length (m : JSMath) (cells : List ColoredCell)
    (options : SVGOptions) :
    (litCellsOf m cells options).length = cells.length := by
  unfold litCellsOf applyLightTransmission
  rcases options.lighting with _ | l
  · rfl
  · dsimp only
    by_cases h : l.enabled
    · simp [h]
    · simp [h]

/-- C2: the parts of the emitted document appear in the strict
back-to-front order — optional filter defs, background rectangle,
optional back-ray layer, optional frame group, the artwork group with
exactly one path per (lit) cell carrying fill, stroke, stroke-width and
stroke-linejoin=round, optional front-ray layer, optional glow layer —
and the background fill is `#1a1a1a` exactly when lighting is enabled
with darkMode set, else `#ffffff`. -/
theorem generateSVG_layer_order (m : JSMath) (s : ℕ → ℚ) (c : ℕ)
    (cells : List ColoredCell) (options : SVGOptions) :
    ∃ defsL backL frameL frontL glowL : List String,
      generateSVGParts m s c cells options =
        defsL ++
        ["  <rect width=\"" ++ numToStr options.width ++ "\" height=\"" ++
          numToStr options.height ++ "\" fill=\"" ++
          (if bgDarkB options.lighting then "#1a1a1a" else "#ffffff") ++
          "\"/>"] ++
        backL ++ frameL ++
        (["  <g class=\"artwork\">"] ++
          (litCellsOf m cells options).map (cellPathElem options) ++
          ["  </g>"]) ++
        frontL ++ glowL ∧
      (litCellsOf m cells options).length = cells.length ∧
      (options.frameElements = [] → frameL = []) ∧
      (options.frameElements ≠ [] →
        frameL = ["  <g class=\"frame\">"] ++
          options.frameElements.map (framePathElem options) ++ ["  </g>"]) ∧
      (lightingEnabledB options.lighting = false →
        defsL = [] ∧ backL = [] ∧ frontL = [] ∧ glowL = []) := by
  rcases hL : options.lighting with _ | l
  · refine ⟨[], [],
      (if options.frameElements.length ≠ 0 then
        ["  <g class=\"frame\">"] ++
          options.frameElements.map (framePathElem options) ++ ["  </g>"]
      else []), [], [], ?_, litCellsOf_length m cells options, ?_, ?_, ?_⟩
    · simp only [generateSVGParts, raySetOf, bgDarkB, hL]
      rfl
    · intro h
      simp [h]
    · intro h
      rw [if_pos (fun hlen => h (List.length_eq_zero.mp hlen))]
    · intro _
      exact ⟨rfl, rfl, rfl, rfl⟩
  · refine ⟨(if l.enabled then
        (let defs := generateLightingDefs l
         if defs = "" then [] else [defs])
      else []),
      (match raySetOf m s c cells options with
        | some rs =>
          if rs.backRays.length ≠ 0 then
            (let layer :=
              renderBackRaysToSVG m rs.backRays options.width options.height
                l.darkMode
             if layer = "" then [] else [layer])
          else []
        | none => []),
      (if options.frameElements.length ≠ 0 then
        ["  <g class=\"frame\">"] ++
          options.frameElements.map (framePathElem options) ++ ["  </g>"]
      else []),
      (match raySetOf m s c cells options with
        | some rs =>
          if rs.frontRays.length ≠ 0 then
            (let layer :=
              renderFrontRaysToSVG m rs.frontRays options.width options.height
                l.darkMode
             if layer = "" then [] else [layer])
          else []
        | none => []),
      (if l.enabled && l.glow.enabled then
        (let layer :=
          renderGlowLayer (litCellsOf m cells options) l options.width
            options.height
         if layer = "" then [] else [layer])
      else []),
      ?_, litCellsOf_length m cells options, ?_, ?_, ?_⟩
    · simp only [generateSVGParts, bgDarkB, hL]
      rcases raySetOf m s c cells options with _ | rs
      · rfl
      · rfl
    · intro h
      simp [h]
    · intro h
      rw [if_pos (fun hlen => h (List.length_eq_zero.mp hlen))]
    · intro h
      simp only [lightingEnabledB, hL] at h
      have hray : raySetOf m s c cells options = none := by
        unfold raySetOf
        rw [hL]
        simp [h]
      refine ⟨by simp [h], ?_, ?_, by simp [h]⟩
      · rw [hray]
      · rw [hray]

/-- The two draws of ray `index` agree when the two streams agree from
their starting counters onward. -/
theorem backRayOf_congr (m : JSMath) (s₁ s₂ : ℕ → ℚ) (c₁ c₂ : ℕ)
    (h : ∀ n, s₁ (c₁ + n) = s₂ (c₂ + n)) (lightSource : PointQ)
    (isCenter : Bool) (rayCount : ℕ) (backRayLength baseWidth : ℚ)
    (lighting : LightSettings) (index : ℕ) (cluster : CellCluster) :
    backRayOf m s₁ c₁ lightSource isCenter rayCount backRayLength baseWidth
        lighting index cluster =
      backRayOf m s₂ c₂ lightSource isCenter rayCount backRayLength baseWidth
        lighting index cluster := by
  have h1 := h (2 * index)
  have h2 : s₁ (c₁ + 2 * index + 1) = s₂ (c₂ + 2 * index + 1) := by
    have := h (2 * index + 1)
    rwa [← add_assoc, ← add_assoc] at this
  unfold backRayOf
  rw [h1, h2]

theorem frontRayOf_congr (m : JSMath) (s₁ s₂ : ℕ → ℚ) (c₁ c₂ : ℕ)
    (h : ∀ n, s₁ (c₁ + n) = s₂ (c₂ + n)) (lightSource : PointQ)
    (isCenter : Bool) (rayCount : ℕ) (frontRayLength baseWidth : ℚ)
    (lighting : LightSettings) (index : ℕ) (cluster : CellCluster) :
    frontRayOf m s₁ c₁ lightSource isCenter rayCount frontRayLength baseWidth
        lighting index cluster =
      frontRayOf m s₂ c₂ lightSource isCenter rayCount frontRayLength baseWidth
        lighting index cluster := by
  have h1 := h (2 * index)
  have h2 : s₁ (c₁ + 2 * index + 1) = s₂ (c₂ + 2 * index + 1) := by
    have := h (2 * index + 1)
    rwa [← add_assoc, ← add_assoc] at this
  unfold frontRayOf
  rw [h1, h2]

theorem generateGodRays_congr (m : JSMath) (s₁ s₂ : ℕ → ℚ) (c₁ c₂ : ℕ)
    (h : ∀ n, s₁ (c₁ + n) = s₂ (c₂ + n)) (clusters : List CellCluster)
    (lighting : LightSettings) (width height : ℚ) :
    generateGodRays m s₁ c₁ clusters lighting width height =
      generateGodRays m s₂ c₂ clusters lighting width height := by
  unfold generateGodRays
  by_cases hcond : lighting.enabled = false ∨ lighting.rays.enabled = false ∨
      clusters.length = 0
  · rw [if_pos hcond, if_pos hcond]
  · rw [if_neg hcond, if_neg hcond]
    dsimp only
    congr 1
    · exact List.map_congr_left (fun (ic : ℕ × CellCluster) _ =>
        backRayOf_congr m s₁ s₂ c₁ c₂ h _ _ _ _ _ lighting ic.1 ic.2)
    · exact List.map_congr_left (fun (ic : ℕ × CellCluster) _ =>
        frontRayOf_congr m s₁ s₂ c₁ c₂ h _ _ _ _ _ lighting ic.1 ic.2)

theorem raySetOf_congr (m : JSMath) (s₁ s₂ : ℕ → ℚ) (c₁ c₂ : ℕ)
    (h : ∀ n, s₁ (c₁ + n) = s₂ (c₂ + n)) (cells : List ColoredCell)
    (options : SVGOptions) :
    raySetOf m s₁ c₁ cells options = raySetOf m s₂ c₂ cells options := by
  unfold raySetOf
  rcases options.lighting with _ | l
  · rfl
  · dsimp only
    by_cases hb : l.enabled && l.rays.enabled
    · rw [if_pos hb, if_pos hb, generateGodRays_congr m s₁ s₂ c₁ c₂ h]
    · rw [if_neg hb, if_neg hb]

/-- C1 (amended): the emitted document is a deterministic function of
the cells, the options and the sequence of `Math.random()` draws
consumed from the starting counter; two runs whose draw sequences agree
produce byte-equal documents.  Because `generateGodRays` draws from the
unseeded global `Math.random`, two successive runs continue the stream
at different counters and need not agree (see the counterexample). -/
theorem generateSVG_determinism (m : JSMath) (s₁ s₂ : ℕ → ℚ) (c₁ c₂ : ℕ)
    (cells : List ColoredCell) (options : SVGOptions)
    (h : ∀ n, s₁ (c₁ + n) = s₂ (c₂ + n)) :
    generateSVG m s₁ c₁ cells options = generateSVG m s₂ c₂ cells options := by
  unfold generateSVG generateSVGParts
  rw [raySetOf_congr m s₁ s₂ c₁ c₂ h cells options]

/-- The `JSMath` record of the C1 witness. -/
def c1wm : JSMath := ⟨fun _ => 0, fun _ => 0, fun _ => 0, fun _ _ => 0, 0⟩

/-- The options of the C1 witness (no lighting). -/
def c1wOptions : SVGOptions := ⟨1, "#000000", 4, 4, [], none⟩

theorem generateSVG_determinism_witness :
    (∀ n : ℕ, (fun _ : ℕ => (1:ℚ)/2) (0 + n) =
      (fun _ : ℕ => (1:ℚ)/2) (3 + n)) ∧
    generateSVG c1wm (fun _ => (1:ℚ)/2) 0 [] c1wOptions =
      generateSVG c1wm (fun _ => (1:ℚ)/2) 3 [] c1wOptions :=
  ⟨fun _ => rfl,
    generateSVG_determinism c1wm _ _ 0 3 [] c1wOptions (fun _ => rfl)⟩

/-- The `JSMath` record of the C1 counterexample: any concrete stand-ins
for the transcendental functions exhibit the draw-dependence. -/
def c1m : JSMath := ⟨fun _ => 5, fun _ => 1, fun _ => 0, fun _ _ => 0, 157/50⟩

/-- The draw stream of the C1 counterexample: the first run consumes the
draws at indices 0 and 1 (one selected cluster, two draws), so an
immediately following run on the unseeded stream starts at counter 2. -/
def c1s : ℕ → ℚ := fun n => if n = 0 then 0 else 1/2

/-- One red triangular cell. -/
def c1cells : List ColoredCell := [⟨[⟨0, 0⟩, ⟨4, 0⟩, ⟨0, 4⟩], ⟨255, 0, 0⟩⟩]

/-- Lighting with rays enabled (center preset, one ray, full ambient). -/
def c1lighting : LightSettings :=
  ⟨true, LightPreset.center, 0, 90, 1, 1, false,
    ⟨true, 1, 1, 45, 1⟩, ⟨false, 1/2, 15⟩⟩

def c1options : SVGOptions := ⟨1, "#000000", 4, 4, [], some c1lighting⟩

set_option maxRecDepth 40000

set_option maxHeartbeats 2000000

/-- C1 counterexample: with identical cells and options, a second run
that continues the unseeded draw stream (counter 2 instead of 0)
produces a different document — the ray width draw changes from 0 to
1/2. -/
theorem generateSVG_run_counterexample :
    generateSVG c1m c1s 0 c1cells c1options ≠
      generateSVG c1m c1s 2 c1cells c1options := by
  with_unfolding_all decide

end StainedGlass
